import Mathlib

/-!
# Track test rig demo (continuous band track): the program `main` and its co-simulation loop

Shallow embedding of `src/demos/vehicle/demo_TrackTestRig_Band/demo_VEH_TrackTestRig_Band.cpp`.

Modelling conventions.

* The driver, the rig, the visualisation application, the file utilities and the
  integrator are library objects outside this file.  They are represented by an
  abstract world `W` together with `Modules W`: `exec` gives the effect of every
  call on the world, and the getters give the value a `const` query returns in a
  world.  Every call that `main` makes is appended to a trace, with its arguments.
* The answers of `app.GetDevice()->run()` are an input list of booleans.
* `main`, `simulationLoop` and `iteration` describe the executions in which every
  library call returns.  The one raising call that the spec prescribes,
  `rig->Advance` on a solve that ends without convergence, is added in
  `mainRaising`: `main` has no handler, so the raised failure leaves it.
  `mainRaising` coincides with `main` as long as the solves converge.
* `double` values are rationals.  The division of line 193, whose result is
  converted to `int` and decides the control flow, is the IEEE 754 binary64
  division: the exact quotient rounded to the nearest binary64 value, ties to
  even, with gradual underflow (`doubleDiv`); a non-finite result is `none`.
  The two quotients handed to the driver as rate limits are kept exact: the
  driver is modelled from the spec, whose ramp is stated up to one delta.
* `int` values are integers kept in the 32-bit two's-complement range: `++` and
  `+ 1` wrap around (`wrap32`), `%` is the truncated remainder and is undefined
  for a zero divisor (`cmod`), and the conversion `(int)` of a double outside the
  range is undefined (`castInt`).  An undefined operation makes `main` return `none`.
-/

namespace TrackTestRigBand

/-! ## Values exchanged with the library -/

/-- Vector of three doubles (`ChVector<>`, `irr::core::vector3df`). -/
structure ChVector where
  x : ℚ
  y : ℚ
  z : ℚ

/-- Quaternion of four doubles (`ChQuaternion<>`). -/
structure ChQuaternion where
  e0 : ℚ
  e1 : ℚ
  e2 : ℚ
  e3 : ℚ

/-- Coordinate system: a position and a rotation (`ChCoordsys<>`). -/
structure ChCoordsys where
  pos : ChVector
  rot : ChQuaternion

/-- Colour with alpha, red, green and blue components (`irr::video::SColor`). -/
structure SColor where
  a : Nat
  r : Nat
  g : Nat
  b : Nat

/-- Force bundle on one body: force, application point and moment (`BodyForces`). -/
structure BodyForces where
  force : ChVector
  point : ChVector
  moment : ChVector

/-- Vector of body forces, one entry per track shoe slot (`TerrainForces`). -/
abbrev TerrainForces := List BodyForces

/-- Sum of two vectors (`operator+` of `ChVector<>`). -/
def ChVector.add (a b : ChVector) : ChVector :=
  ⟨a.x + b.x, a.y + b.y, a.z + b.z⟩

/-- Default-constructed body forces: all components zero. -/
def BodyForces.zero : BodyForces :=
  ⟨⟨0, 0, 0⟩, ⟨0, 0, 0⟩, ⟨0, 0, 0⟩⟩

/-- Side of the vehicle (`VehicleSide`). -/
inductive VehicleSide
  | LEFT
  | RIGHT

/-- Modelled from the spec: the enumeration `TrackShoeType` is declared in a header
that is not part of the source at hand.  The program names the two enumerators
`BAND_BUSHING` and `BAND_ANCF` (the spec's variants Bushing and FiniteElementBand);
every other enumerator of the type is `other tag`. -/
inductive TrackShoeType
  | BAND_BUSHING
  | BAND_ANCF
  | other (tag : Nat)
deriving DecidableEq

/-- Track assembly classes instantiated by the program. -/
inductive AssemblyClass
  | M113_TrackAssemblyBandBushing
  | M113_TrackAssemblyBandANCF

/-- Contact method of the rig's system (`ChMaterialSurface::ContactMethod`). -/
inductive ContactMethod
  | NSC
  | SMC

/-- Visualisation modes (`VisualizationType`). -/
inductive VisualizationType
  | NONE
  | PRIMITIVES
  | MESH

/-- Time stepper kinds selected by the program (`ChTimestepper::Type`). -/
inductive TimestepperType
  | HHT

/-- Formulation modes of the HHT stepper (`ChTimestepperHHT::HHT_Mode`). -/
inductive HHTMode
  | ACCELERATION
  | POSITION

/-- Every call that `main` makes on a library object, with the arguments it passes. -/
inductive Call
  | log (msg : String)
  | coutLine (msg : String)
  | newRigJSON (filename : String) (attach_loc : ChVector)
  | makeAssembly (cls : AssemblyClass) (side : VehicleSide)
  | newRig (cls : AssemblyClass) (attach_loc : ChVector) (contact : ContactMethod)
  | initializeRig (pos : ChCoordsys)
  | setSprocketVisualizationType (v : VisualizationType)
  | setIdlerVisualizationType (v : VisualizationType)
  | setRoadWheelAssemblyVisualizationType (v : VisualizationType)
  | setRoadWheelVisualizationType (v : VisualizationType)
  | setTrackShoeVisualizationType (v : VisualizationType)
  | newApp (title : String)
  | setSkyBox
  | addTypicalLights (pos1 pos2 : ChVector) (rad1 rad2 : ℚ)
  | setChaseCamera (pt : ChVector) (dist height : ℚ)
  | setChaseCameraPosition (pos : ChVector)
  | setChaseCameraMultipliers (hor ver : ℚ)
  | setTimestep (h : ℚ)
  | assetBindAll
  | assetUpdateAll
  | newDriver (post_limit : ℚ)
  | setSteeringDelta (delta : Option ℚ)
  | setDisplacementDelta (delta : Option ℚ)
  | initializeDriver
  | makeDirectory (path : String)
  | newSolverMKL
  | setSolver
  | setSparsityPatternLock (flag : Bool)
  | systemUpdate
  | setTimestepperType (t : TimestepperType)
  | setAlpha (alpha : ℚ)
  | setMaxiters (n : Int)
  | setAbsTolerances (tol : ℚ)
  | setMode (m : HHTMode)
  | setScaling (flag : Bool)
  | setVerbose (flag : Bool)
  | setStepControl (flag : Bool)
  | setModifiedNewton (flag : Bool)
  | setupInitial
  | deviceRun
  | beginScene (backBuffer zBuffer : Bool) (color : SColor)
  | drawAll
  | endScene
  | writeImageToFile (dir : String) (index : Int)
  | driverSynchronize (time : ℚ)
  | rigSynchronize (time post_input throttle_input : ℚ) (shoe_forces : TerrainForces)
  | appSynchronize (msg : String) (steering throttle braking : ℚ)
  | driverAdvance (step : ℚ)
  | rigAdvance (step : ℚ)
  | appAdvance (step : ℚ)
  | coutStep (step_number : Int) (time : ℚ) (iterations : Int)
  | deleteRig

/-- The library objects as seen by `main`: the effect of each call on the world and
the values returned by the queries `main` makes. -/
structure Modules (W : Type) where
  /-- Effect of a call on the world. -/
  exec : Call → W → W
  /-- Value of `rig->GetTrackAssembly()->GetSprocket()->GetGearBody()->GetPos()`. -/
  getSprocketPos : W → ChVector
  /-- Value returned by `ChFileutils::MakeDirectory` for a path. -/
  makeDirectoryResult : W → String → Int
  /-- Value of `driver.GetThrottle()`. -/
  getThrottle : W → ℚ
  /-- Value of `driver.GetDisplacement()`. -/
  getDisplacement : W → ℚ
  /-- Value of `rig->GetChTime()`. -/
  getChTime : W → ℚ
  /-- Value of `mystepper->GetNumIterations()`. -/
  getNumIterations : W → Int
  /-- Modelled from the spec: the flag `converged` of the IntegratorDiagnostics of
  the last solve (the stepper class is outside the source at hand).  `main` never
  reads the flag; by the spec the rig raises IntegratorDivergence to its caller
  when the flag is false after `rig->Advance` (see `advanceRig`). -/
  converged : W → Bool

/-! ## User settings -/

/-- The user settings of the program (its global variables), together with the
values that the program fixes in local variables (`type`, `steering_time`,
`displacement_time`) and the two strings supplied by the library. -/
structure Config where
  use_JSON : Bool
  filename : String
  post_limit : ℚ
  step_size : ℚ
  render_step_size : ℚ
  img_output : Bool
  type : TrackShoeType
  steering_time : ℚ
  displacement_time : ℚ
  /-- Value of `GetChronoOutputPath()`. -/
  chronoOutputPath : String
  /-- Value of the macro `CHRONO_VERSION`. -/
  chronoVersion : String

/-- The settings as written in the source. -/
def defaultConfig : Config where
  use_JSON := false
  filename := "M113/track_assembly/M113_TrackAssemblyBandANCF_Left.json"
  post_limit := 2 / 10
  step_size := 1 / 100000
  render_step_size := 1 / 100000
  img_output := false
  type := TrackShoeType.BAND_ANCF
  steering_time := 1
  displacement_time := 2
  chronoOutputPath := "DEMO_OUTPUT/"
  chronoVersion := ""

/-- The output directory `GetChronoOutputPath() + "TRACK_TEST_RIG"`. -/
def out_dir (cfg : Config) : String :=
  cfg.chronoOutputPath ++ "TRACK_TEST_RIG"

/-! ## Machine arithmetic -/

/-- Smallest value of `int`. -/
def INT_MIN : Int := -2147483648

/-- Largest value of `int`. -/
def INT_MAX : Int := 2147483647

/-- Reduction of an integer to the 32-bit two's-complement range. -/
def wrap32 (x : Int) : Int :=
  (x + 2147483648) % 4294967296 - 2147483648

/-- The operator `%` on `int`: truncated remainder, undefined for a zero divisor
and for `INT_MIN % -1`. -/
def cmod (a b : Int) : Option Int :=
  if b = 0 then none
  else if a = INT_MIN ∧ b = -1 then none
  else some (Int.tmod a b)

/-- Rounding of a rational to the nearest integer, a tie going to the even one. -/
def roundHalfEven (x : ℚ) : Int :=
  if x - (⌊x⌋ : Int) < 1 / 2 then ⌊x⌋
  else if 1 / 2 < x - (⌊x⌋ : Int) then ⌊x⌋ + 1
  else if ⌊x⌋ % 2 = 0 then ⌊x⌋ else ⌊x⌋ + 1

/-- Exponent of the spacing of the binary64 values around a positive magnitude:
52 binary places below the leading bit, and never below the spacing `2 ^ (-1074)`
of the subnormal values. -/
def ulpExponent (x : ℚ) : Int :=
  max (Int.log 2 x - 52) (-1074)

/-- The binary64 value nearest to a non-negative rational, ties to even; `none`
when the rounded value is `2 ^ 1024` or more (overflow to infinity). -/
def roundMagnitude (x : ℚ) : Option ℚ :=
  if (2 : ℚ) ^ (1024 : Int) ≤ (roundHalfEven (x / 2 ^ ulpExponent x) : ℚ) * 2 ^ ulpExponent x
  then none
  else some ((roundHalfEven (x / 2 ^ ulpExponent x) : ℚ) * 2 ^ ulpExponent x)

/-- The binary64 value nearest to a rational (IEEE 754 round to nearest, ties to
even); `none` on overflow. -/
def roundDouble (x : ℚ) : Option ℚ :=
  if x < 0 then (roundMagnitude (-x)).map (fun y => -y) else roundMagnitude x

/-- The operator `/` on doubles: the exact quotient rounded to binary64; `none`
stands for a non-finite result (division by zero, overflow). -/
def doubleDiv (a b : ℚ) : Option ℚ :=
  if b = 0 then none else roundDouble (a / b)

/-- The function `std::ceil`. -/
def ceil (x : ℚ) : ℚ :=
  (⌈x⌉ : Int)

/-- The conversion `(int)` of a double: truncation toward zero, undefined when the
truncated value is not an `int`. -/
def castInt (x : ℚ) : Option Int :=
  let t : Int := if 0 ≤ x then ⌊x⌋ else ⌈x⌉
  if INT_MIN ≤ t ∧ t ≤ INT_MAX then some t else none

/-- Number of simulation steps between two render frames:
`(int)std::ceil(render_step_size / step_size)`. -/
def render_steps (cfg : Config) : Option Int :=
  match doubleDiv cfg.render_step_size cfg.step_size with
  | none => none
  | some q => castInt (ceil q)

/-- Argument of `driver.SetSteeringDelta`: `render_step_size / steering_time`.
The quotient is kept exact (the spec gives this rate limit as the quotient
renderStep/steeringTime and states the ramp up to one delta); the rounding of
this division, a relative error of at most `2 ^ (-53)`, is not carried into the
driver model, whose arithmetic is exact.  A division by zero gives `none`. -/
def steeringDelta (cfg : Config) : Option ℚ :=
  if cfg.steering_time = 0 then none
  else some (cfg.render_step_size / cfg.steering_time)

/-- Argument of `driver.SetDisplacementDelta`:
`render_step_size / displacement_time * post_limit`, kept exact like the steering
delta.  A division by zero gives `none`. -/
def displacementDelta (cfg : Config) : Option ℚ :=
  if cfg.displacement_time = 0 then none
  else some (cfg.render_step_size / cfg.displacement_time * cfg.post_limit)

/-! ## Execution state -/

/-- The world of the library objects and the calls made so far. -/
structure Exec (W : Type) where
  world : W
  trace : List Call

/-- Make one call: apply its effect and record it. -/
def Exec.call {W : Type} (M : Modules W) (c : Call) (e : Exec W) : Exec W :=
  ⟨M.exec c e.world, e.trace ++ [c]⟩

/-- Make a sequence of calls, first to last. -/
def Exec.calls {W : Type} (M : Modules W) (cs : List Call) (e : Exec W) : Exec W :=
  cs.foldl (fun e c => e.call M c) e

/-- Local variables of `main` that are live in the simulation loop, with the
execution state. -/
structure LoopState (W : Type) where
  exec : Exec W
  shoe_forces : TerrainForces
  step_number : Int
  render_frame : Int

/-- Result of running `main` against a list of answers of the host:
`exit = some c` when `main` returned `c`, `exit = none` when the answers ran out
while the loop was still waiting for the host. -/
structure Run (W : Type) where
  exit : Option Int
  exec : Exec W

/-! ## The program, section by section -/

/-- Section "Create the track test rig".  `Except.error` carries the state at the
early `return 1` of the `default` case. -/
def createRig {W : Type} (cfg : Config) (M : Modules W) (e : Exec W) :
    Except (Exec W) (Exec W) :=
  let attach_loc : ChVector := ⟨0, 1, 0⟩
  if cfg.use_JSON then
    Except.ok (e.call M (Call.newRigJSON cfg.filename attach_loc))
  else
    let side := VehicleSide.LEFT
    match cfg.type with
    | TrackShoeType.BAND_BUSHING =>
      Except.ok (e.calls M
        [Call.makeAssembly AssemblyClass.M113_TrackAssemblyBandBushing side,
         Call.newRig AssemblyClass.M113_TrackAssemblyBandBushing attach_loc ContactMethod.SMC])
    | TrackShoeType.BAND_ANCF =>
      Except.ok (e.calls M
        [Call.makeAssembly AssemblyClass.M113_TrackAssemblyBandANCF side,
         Call.newRig AssemblyClass.M113_TrackAssemblyBandANCF attach_loc ContactMethod.SMC])
    | TrackShoeType.other _ =>
      Except.error (e.call M (Call.coutLine "Track type not supported"))

/-- Section "Initialize the track test rig". -/
def initializeRigCalls : List Call :=
  [Call.initializeRig ⟨⟨0, 0, 2⟩, ⟨1, 0, 0, 0⟩⟩,
   Call.setSprocketVisualizationType VisualizationType.PRIMITIVES,
   Call.setIdlerVisualizationType VisualizationType.PRIMITIVES,
   Call.setRoadWheelAssemblyVisualizationType VisualizationType.PRIMITIVES,
   Call.setRoadWheelVisualizationType VisualizationType.PRIMITIVES,
   Call.setTrackShoeVisualizationType VisualizationType.PRIMITIVES]

/-- Section "Create the vehicle Irrlicht application"; `target_point` is the
sprocket position read before the application is created. -/
def createAppCalls (cfg : Config) (target_point : ChVector) : List Call :=
  [Call.newApp "Suspension Test Rig",
   Call.setSkyBox,
   Call.addTypicalLights ⟨30, -30, 100⟩ ⟨30, 50, 100⟩ 250 130,
   Call.setChaseCamera ⟨-2, 0, 0⟩ 3 0,
   Call.setChaseCameraPosition (target_point.add ⟨-2, 3, 0⟩),
   Call.setChaseCameraMultipliers (1 / 10000) 10,
   Call.setTimestep cfg.step_size,
   Call.assetBindAll,
   Call.assetUpdateAll]

/-- Section "Create the driver system". -/
def createDriverCalls (cfg : Config) : List Call :=
  [Call.newDriver cfg.post_limit,
   Call.setSteeringDelta (steeringDelta cfg),
   Call.setDisplacementDelta (displacementDelta cfg),
   Call.initializeDriver]

/-- Section "Solver and integrator settings", with the call `SetupInitial` that
marks the completion of the system construction. -/
def solverCalls : List Call :=
  [Call.newSolverMKL,
   Call.setSolver,
   Call.setSparsityPatternLock false,
   Call.systemUpdate,
   Call.setTimestepperType TimestepperType.HHT,
   Call.setAlpha (-2 / 10),
   Call.setMaxiters 200,
   Call.setAbsTolerances (1 / 100),
   Call.setMode HHTMode.ACCELERATION,
   Call.setScaling true,
   Call.setVerbose false,
   Call.setStepControl true,
   Call.setModifiedNewton false,
   Call.setupInitial]

/-- Sections "Initialize the track test rig" to "Create the driver system": the
calls made between the construction of the rig and the creation of the output
directory. -/
def assemble {W : Type} (cfg : Config) (M : Modules W) (e : Exec W) : Exec W :=
  let e1 := e.calls M initializeRigCalls
  let target_point := M.getSprocketPos e1.world
  let e2 := e1.calls M (createAppCalls cfg target_point)
  e2.calls M (createDriverCalls cfg)

/-- Section "Initialize output".  `Except.error` carries the state at the early
`return 1` taken when `MakeDirectory` returns a negative value. -/
def initializeOutput {W : Type} (cfg : Config) (M : Modules W) (e : Exec W) :
    Except (Exec W) (Exec W) :=
  let r := M.makeDirectoryResult e.world (out_dir cfg)
  let e1 := e.call M (Call.makeDirectory (out_dir cfg))
  if r < 0 then
    Except.error (e1.call M (Call.coutLine ("Error creating directory " ++ out_dir cfg)))
  else
    Except.ok e1

/-- The branch "Render scene" of one loop iteration: the three scene calls, the
optional screenshot, and the increment of `render_frame`.  The file name that
`sprintf` builds with the format `%s/img_%03d.jpg` is represented by its two
arguments, the directory and the index `render_frame + 1`. -/
def renderScene {W : Type} (cfg : Config) (M : Modules W) (s : LoopState W) : LoopState W :=
  let e1 := s.exec.calls M
    [Call.beginScene true true ⟨255, 140, 161, 192⟩, Call.drawAll, Call.endScene]
  let e2 :=
    if cfg.img_output && decide (s.step_number > 1000) then
      e1.call M (Call.writeImageToFile (out_dir cfg) (wrap32 (s.render_frame + 1)))
    else e1
  { s with exec := e2, render_frame := wrap32 (s.render_frame + 1) }

/-- The six module calls of one loop iteration, for the values read from the
driver and the rig. -/
def moduleCalls (cfg : Config) (time post_input throttle_input : ℚ)
    (shoe_forces : TerrainForces) : List Call :=
  [Call.driverSynchronize time,
   Call.rigSynchronize time post_input throttle_input shoe_forces,
   Call.appSynchronize "" 0 throttle_input 0,
   Call.driverAdvance cfg.step_size,
   Call.rigAdvance cfg.step_size,
   Call.appAdvance cfg.step_size]

/-- The part of one loop iteration after the render branch: collect the driver
outputs, read the rig's time, synchronize and advance the modules, increment
`step_number` and print the step line. -/
def updateModules {W : Type} (cfg : Config) (M : Modules W) (s : LoopState W) : LoopState W :=
  let throttle_input := M.getThrottle s.exec.world
  let post_input := M.getDisplacement s.exec.world
  let time := M.getChTime s.exec.world
  let e1 := s.exec.calls M (moduleCalls cfg time post_input throttle_input s.shoe_forces)
  let step_number := wrap32 (s.step_number + 1)
  let e2 := e1.call M (Call.coutStep step_number time (M.getNumIterations e1.world))
  { s with exec := e2, step_number := step_number }

/-- One iteration of the simulation loop body, for the value `k` of `render_steps`.
The debugging reads at the top of the body are `const` queries whose values are
not used; they make no call that is recorded. -/
def iteration {W : Type} (cfg : Config) (M : Modules W) (k : Int) (s : LoopState W) :
    Option (LoopState W) :=
  match cmod s.step_number k with
  | none => none
  | some r => some (updateModules cfg M (if r = 0 then renderScene cfg M s else s))

/-- The loop `while (app.GetDevice()->run())`, run against the host's answers.
The boolean of the result tells whether the loop was left (an answer `false`
arrived); it is `false` when the answers ran out first. -/
def simulationLoop {W : Type} (cfg : Config) (M : Modules W) (k : Int) :
    List Bool → LoopState W → Option (LoopState W × Bool)
  | [], s => some (s, false)
  | false :: _, s => some ({ s with exec := s.exec.call M Call.deviceRun }, true)
  | true :: rest, s =>
    match iteration cfg M k { s with exec := s.exec.call M Call.deviceRun } with
    | none => none
    | some s1 => simulationLoop cfg M k rest s1

/-- Local variables at the entry of the loop: `shoe_forces(1)`, `step_number = 0`,
`render_frame = 0`. -/
def initialLoopState {W : Type} (e : Exec W) : LoopState W :=
  ⟨e, [BodyForces.zero], 0, 0⟩

/-- Section "Simulation loop" and the end of `main`. -/
def simulate {W : Type} (cfg : Config) (M : Modules W) (answers : List Bool) (e : Exec W) :
    Option (Run W) :=
  let e1 := e.calls M solverCalls
  match render_steps cfg with
  | none => none
  | some k =>
    match simulationLoop cfg M k answers (initialLoopState e1) with
    | none => none
    | some (s, true) => some ⟨some 0, s.exec.call M Call.deleteRig⟩
    | some (s, false) => some ⟨none, s.exec⟩

/-- The first statement of `main`: the banner written to the log. -/
def logBanner {W : Type} (cfg : Config) (M : Modules W) (w0 : W) : Exec W :=
  (Exec.mk w0 []).call M
    (Call.log ("Copyright (c) 2017 projectchrono.org\nChrono version: " ++ cfg.chronoVersion
      ++ "\n\n"))

/-- The program `main`, started in world `w0` and run against the host's answers. -/
def main {W : Type} (cfg : Config) (M : Modules W) (w0 : W) (answers : List Bool) :
    Option (Run W) :=
  match createRig cfg M (logBanner cfg M w0) with
  | Except.error e => some ⟨some 1, e⟩
  | Except.ok e1 =>
    match initializeOutput cfg M (assemble cfg M e1) with
    | Except.error e => some ⟨some 1, e⟩
    | Except.ok e2 => simulate cfg M answers e2

/-! ## The exceptional exit of `rig->Advance` -/

/-- Result of a run of `main` in which `rig->Advance` may raise: `completed` when
no failure was raised (the run is then the one of `main`), `raised` when an
IntegratorDivergence left `main`, with the state at the raise. -/
inductive Outcome (W : Type)
  | completed (run : Run W)
  | raised (exec : Exec W)

/-- Modelled from the spec: the call `rig->Advance(step)` with its failure path.
The rig invokes the integrator once; when the solve ends without convergence
(iteration cap exhausted, step control disabled or exhausted), the flag
`converged` is false and IntegratorDivergence is raised to the caller.
`Except.error` carries the state at the raise. -/
def advanceRig {W : Type} (M : Modules W) (step : ℚ) (e : Exec W) :
    Except (Exec W) (Exec W) :=
  if M.converged (e.call M (Call.rigAdvance step)).world = true
  then Except.ok (e.call M (Call.rigAdvance step))
  else Except.error (e.call M (Call.rigAdvance step))

/-- The part of one loop iteration after the render branch, as `updateModules`,
with `rig->Advance` raising: the body has no handler, so a raised failure ends it
at once, before `app.Advance`, the increment of `step_number` and the step line. -/
def updateModulesRaising {W : Type} (cfg : Config) (M : Modules W) (s : LoopState W) :
    Except (Exec W) (LoopState W) :=
  let throttle_input := M.getThrottle s.exec.world
  let post_input := M.getDisplacement s.exec.world
  let time := M.getChTime s.exec.world
  let e0 := s.exec.calls M
    [Call.driverSynchronize time,
     Call.rigSynchronize time post_input throttle_input s.shoe_forces,
     Call.appSynchronize "" 0 throttle_input 0,
     Call.driverAdvance cfg.step_size]
  match advanceRig M cfg.step_size e0 with
  | Except.error e => Except.error e
  | Except.ok e1 =>
    let e2 := e1.call M (Call.appAdvance cfg.step_size)
    let step_number := wrap32 (s.step_number + 1)
    let e3 := e2.call M (Call.coutStep step_number time (M.getNumIterations e2.world))
    Except.ok { s with exec := e3, step_number := step_number }

/-- One iteration of the loop body, as `iteration`, with `rig->Advance` raising. -/
def iterationRaising {W : Type} (cfg : Config) (M : Modules W) (k : Int) (s : LoopState W) :
    Option (Except (Exec W) (LoopState W)) :=
  match cmod s.step_number k with
  | none => none
  | some r => some (updateModulesRaising cfg M (if r = 0 then renderScene cfg M s else s))

/-- The loop, as `simulationLoop`, with `rig->Advance` raising: the loop has no
handler, so a raised failure leaves it and no further iteration is run. -/
def simulationLoopRaising {W : Type} (cfg : Config) (M : Modules W) (k : Int) :
    List Bool → LoopState W → Option (Except (Exec W) (LoopState W × Bool))
  | [], s => some (Except.ok (s, false))
  | false :: _, s => some (Except.ok ({ s with exec := s.exec.call M Call.deviceRun }, true))
  | true :: rest, s =>
    match iterationRaising cfg M k { s with exec := s.exec.call M Call.deviceRun } with
    | none => none
    | some (Except.error e) => some (Except.error e)
    | some (Except.ok s1) => simulationLoopRaising cfg M k rest s1

/-- Section "Simulation loop" and the end of `main`, as `simulate`, with
`rig->Advance` raising: `main` has no handler, so a raised failure leaves `main`
without `delete rig` and without a return code. -/
def simulateRaising {W : Type} (cfg : Config) (M : Modules W) (answers : List Bool)
    (e : Exec W) : Option (Outcome W) :=
  let e1 := e.calls M solverCalls
  match render_steps cfg with
  | none => none
  | some k =>
    match simulationLoopRaising cfg M k answers (initialLoopState e1) with
    | none => none
    | some (Except.error e2) => some (Outcome.raised e2)
    | some (Except.ok (s, true)) =>
      some (Outcome.completed ⟨some 0, s.exec.call M Call.deleteRig⟩)
    | some (Except.ok (s, false)) => some (Outcome.completed ⟨none, s.exec⟩)

/-- The program `main` with `rig->Advance` raising. -/
def mainRaising {W : Type} (cfg : Config) (M : Modules W) (w0 : W) (answers : List Bool) :
    Option (Outcome W) :=
  match createRig cfg M (logBanner cfg M w0) with
  | Except.error e => some (Outcome.completed ⟨some 1, e⟩)
  | Except.ok e1 =>
    match initializeOutput cfg M (assemble cfg M e1) with
    | Except.error e => some (Outcome.completed ⟨some 1, e⟩)
    | Except.ok e2 => simulateRaising cfg M answers e2

/-! ## Observations on traces -/

/-- The six module calls of a macro-step, without their arguments. -/
inductive ModuleCall
  | driverSynchronize
  | rigSynchronize
  | appSynchronize
  | driverAdvance
  | rigAdvance
  | appAdvance
deriving DecidableEq

/-- Which module call a call is, if it is one. -/
def Call.moduleCall : Call → Option ModuleCall
  | Call.driverSynchronize _ => some ModuleCall.driverSynchronize
  | Call.rigSynchronize _ _ _ _ => some ModuleCall.rigSynchronize
  | Call.appSynchronize _ _ _ _ => some ModuleCall.appSynchronize
  | Call.driverAdvance _ => some ModuleCall.driverAdvance
  | Call.rigAdvance _ => some ModuleCall.rigAdvance
  | Call.appAdvance _ => some ModuleCall.appAdvance
  | _ => none

/-- The step passed to an `Advance` call. -/
def Call.advanceStep : Call → Option ℚ
  | Call.driverAdvance h => some h
  | Call.rigAdvance h => some h
  | Call.appAdvance h => some h
  | _ => none

/-- Whether a call notifies the observer of a frame (`app.DrawAll()`). -/
def Call.isDrawAll : Call → Bool
  | Call.drawAll => true
  | _ => false

/-- Whether a call is the rig's `Advance`, which marks a macro-step. -/
def Call.isRigAdvance : Call → Bool
  | Call.rigAdvance _ => true
  | _ => false

/-- Whether a call creates or initializes a test rig object. -/
def Call.isRigConstruction : Call → Bool
  | Call.newRigJSON _ _ => true
  | Call.makeAssembly _ _ => true
  | Call.newRig _ _ _ => true
  | Call.initializeRig _ => true
  | _ => false

/-- The module calls of a trace, in order. -/
def moduleTrace (t : List Call) : List ModuleCall :=
  t.filterMap Call.moduleCall

/-- The steps passed to the `Advance` calls of a trace, in order. -/
def advanceSteps (t : List Call) : List ℚ :=
  t.filterMap Call.advanceStep

/-- Number of frames drawn in a trace. -/
def framesDrawn (t : List Call) : Nat :=
  t.countP Call.isDrawAll

/-- Number of macro-steps performed in a trace. -/
def macroSteps (t : List Call) : Nat :=
  t.countP Call.isRigAdvance

/-- The order of the module calls within one macro-step. -/
def macroStepOrder : List ModuleCall :=
  [ModuleCall.driverSynchronize, ModuleCall.rigSynchronize, ModuleCall.appSynchronize,
   ModuleCall.driverAdvance, ModuleCall.rigAdvance, ModuleCall.appAdvance]

/-- Number of leading answers `true` (continue) in the host's answers. -/
def leadingContinues (answers : List Bool) : Nat :=
  (answers.takeWhile (fun b => b)).length

/-! ## Auxiliary description of the loop for a positive `render_steps` -/

/-- The calls of the render branch in a state. -/
def renderCalls (cfg : Config) (step_number render_frame : Int) : List Call :=
  [Call.beginScene true true ⟨255, 140, 161, 192⟩, Call.drawAll, Call.endScene] ++
    (if cfg.img_output && decide (step_number > 1000) then
      [Call.writeImageToFile (out_dir cfg) (wrap32 (render_frame + 1))] else [])

/-- The loop state after the host answered `true` to `run()`. -/
def enter {W : Type} (M : Modules W) (s : LoopState W) : LoopState W :=
  { s with exec := s.exec.call M Call.deviceRun }

/-- One iteration with the remainder taken as defined. -/
def step {W : Type} (cfg : Config) (M : Modules W) (k : Int) (s : LoopState W) : LoopState W :=
  updateModules cfg M (if Int.tmod s.step_number k = 0 then renderScene cfg M s else s)

/-- The state after `n` iterations, each entered by an answer `true`. -/
def steps {W : Type} (cfg : Config) (M : Modules W) (k : Int) : Nat → LoopState W → LoopState W
  | 0, s => s
  | n + 1, s => steps cfg M k n (step cfg M k (enter M s))

/-- The state right after the call `rig->Advance` in the part of an iteration
that follows the render branch. -/
def afterRigAdvance {W : Type} (cfg : Config) (M : Modules W) (s : LoopState W) : Exec W :=
  s.exec.calls M
    [Call.driverSynchronize (M.getChTime s.exec.world),
     Call.rigSynchronize (M.getChTime s.exec.world) (M.getDisplacement s.exec.world)
       (M.getThrottle s.exec.world) s.shoe_forces,
     Call.appSynchronize "" 0 (M.getThrottle s.exec.world) 0,
     Call.driverAdvance cfg.step_size,
     Call.rigAdvance cfg.step_size]

/-- The state right after the call `rig->Advance` of the iteration that the loop
runs from state `s` on an answer continue. -/
def solveState {W : Type} (cfg : Config) (M : Modules W) (k : Int) (s : LoopState W) :
    Exec W :=
  afterRigAdvance cfg M
    (if Int.tmod (enter M s).step_number k = 0 then renderScene cfg M (enter M s)
      else enter M s)

/-- A trace without module calls and without drawn frames. -/
def Quiet (t : List Call) : Prop :=
  ∀ c ∈ t, c.moduleCall = none ∧ c.isDrawAll = false

/-- The state in which the loop starts, for the state reached after the section
"Initialize output". -/
def loopEntry {W : Type} (M : Modules W) (e : Exec W) : LoopState W :=
  initialLoopState (e.calls M solverCalls)

/-! ## A reference environment

The driver is the driver model of the spec; the rig keeps a clock that each
`Advance` moves by the step; the other objects have no state of interest. -/

/-- Modelled from the spec: the driver model (class `ChIrrGuiDriverTTR`, outside the
source at hand).  It holds the two control signals, their externally latched
targets, the per-step deltas and the post displacement limit. -/
structure DriverModel where
  throttle : ℚ
  displacement : ℚ
  throttleTarget : ℚ
  displacementTarget : ℚ
  throttleDelta : ℚ
  displacementDelta : ℚ
  limit : ℚ

/-- Restriction of a value to the interval from `lo` to `hi`. -/
def clamp (lo hi x : ℚ) : ℚ :=
  max lo (min hi x)

/-- Move `cur` toward `target` by `delta`, without overshooting. -/
def approach (cur target delta : ℚ) : ℚ :=
  if cur ≤ target then min (cur + delta) target else max (cur - delta) target

/-- Modelled from the spec: `Initialize()` sets the signals to zero. -/
def DriverModel.Initialize (d : DriverModel) : DriverModel :=
  { d with throttle := 0, displacement := 0 }

/-- Modelled from the spec: `Synchronize(t)` is a placeholder without effect. -/
def DriverModel.Synchronize (d : DriverModel) (_time : ℚ) : DriverModel :=
  d

/-- Modelled from the spec: `Advance` moves each signal toward its latched target by
the configured per-step delta, clamped to the valid range, without overshooting. -/
def DriverModel.Advance (d : DriverModel) (_step : ℚ) : DriverModel :=
  { d with
    throttle := clamp 0 1 (approach d.throttle d.throttleTarget d.throttleDelta)
    displacement := clamp (-d.limit) d.limit
      (approach d.displacement d.displacementTarget d.displacementDelta) }

/-- Modelled from the spec: `GetThrottle()` returns the current clamped value. -/
def DriverModel.GetThrottle (d : DriverModel) : ℚ :=
  clamp 0 1 d.throttle

/-- Modelled from the spec: `GetDisplacement()` returns the current clamped value. -/
def DriverModel.GetDisplacement (d : DriverModel) : ℚ :=
  clamp (-d.limit) d.limit d.displacement

/-- World of the reference environment. -/
structure RefWorld where
  driver : DriverModel
  time : ℚ
  iterations : Int
  directoryStatus : Int
  solveConverged : Bool

/-- Effect of the calls in the reference environment. -/
def refExec : Call → RefWorld → RefWorld
  | Call.newDriver post_limit, w => { w with driver := { w.driver with limit := post_limit } }
  | Call.setSteeringDelta (some d), w =>
    { w with driver := { w.driver with throttleDelta := d } }
  | Call.setDisplacementDelta (some d), w =>
    { w with driver := { w.driver with displacementDelta := d } }
  | Call.initializeDriver, w => { w with driver := w.driver.Initialize }
  | Call.driverSynchronize time, w => { w with driver := w.driver.Synchronize time }
  | Call.driverAdvance step, w => { w with driver := w.driver.Advance step }
  | Call.rigAdvance step, w => { w with time := w.time + step }
  | _, w => w

/-- The reference environment. -/
def refModules : Modules RefWorld where
  exec := refExec
  getSprocketPos := fun _ => ⟨0, 0, 0⟩
  makeDirectoryResult := fun w _ => w.directoryStatus
  getThrottle := fun w => w.driver.GetThrottle
  getDisplacement := fun w => w.driver.GetDisplacement
  getChTime := fun w => w.time
  getNumIterations := fun w => w.iterations
  converged := fun w => w.solveConverged

/-- Initial reference world: a driver at rest whose throttle target is latched at
`throttleTarget`, the clock at zero, a stepper that reports `iterations` iterations
and whose solves end with `solveConverged`, and `directoryStatus` as the status of
directory creation. -/
def refWorld (throttleTarget : ℚ) (iterations directoryStatus : Int)
    (solveConverged : Bool) : RefWorld where
  driver := ⟨0, 0, throttleTarget, 0, 0, 0, 0⟩
  time := 0
  iterations := iterations
  directoryStatus := directoryStatus
  solveConverged := solveConverged

/-- Whether a call is one of the observer's calls of the render branch. -/
def Call.isRenderCall : Call → Bool
  | Call.beginScene _ _ _ => true
  | Call.drawAll => true
  | Call.endScene => true
  | Call.writeImageToFile _ _ => true
  | _ => false

/-- Whether a call is made on the driver. -/
def Call.touchesDriver : Call → Bool
  | Call.newDriver _ => true
  | Call.setSteeringDelta _ => true
  | Call.setDisplacementDelta _ => true
  | Call.initializeDriver => true
  | Call.driverSynchronize _ => true
  | Call.driverAdvance _ => true
  | _ => false

/-- The source's settings with the simulation step, the render interval and the
steering time replaced. -/
def rampConfig (step_size render_step_size steering_time : ℚ) : Config :=
  { defaultConfig with
    step_size := step_size
    render_step_size := render_step_size
    steering_time := steering_time }

/-! ## Basic lemmas -/

section Lemmas

variable {W : Type}

theorem roundHalfEven_le (x : ℚ) (n : Int) (h : x ≤ n) : roundHalfEven x ≤ n := by
  have hf : ⌊x⌋ ≤ n := Int.cast_le.mp ((Int.floor_le x).trans h)
  unfold roundHalfEven
  have key : ¬ (x - (⌊x⌋ : Int) < 1 / 2) → ⌊x⌋ + 1 ≤ n := by
    intro h1
    have h2 : ((⌊x⌋ : Int) : ℚ) < x := by linarith
    have h3 : ((⌊x⌋ : Int) : ℚ) < (n : ℚ) := lt_of_lt_of_le h2 h
    have h4 : ⌊x⌋ < n := by exact_mod_cast h3
    omega
  split
  · exact hf
  · rename_i h1
    split
    · exact key h1
    · split
      · exact hf
      · exact key h1

theorem le_roundHalfEven (x : ℚ) (n : Int) (h : (n : ℚ) ≤ x) : n ≤ roundHalfEven x := by
  have hf : n ≤ ⌊x⌋ := Int.le_floor.mpr h
  unfold roundHalfEven
  split
  · exact hf
  · split
    · omega
    · split
      · exact hf
      · omega

theorem roundHalfEven_of_le_half (x : ℚ) (h0 : 0 ≤ x) (h : x ≤ 1 / 2) : roundHalfEven x = 0 := by
  have hf : ⌊x⌋ = 0 := by
    rw [Int.floor_eq_iff]
    constructor
    · simpa using h0
    · norm_num; linarith
  unfold roundHalfEven
  rw [hf]
  simp only [Int.cast_zero, sub_zero]
  split
  · rfl
  · split
    · linarith
    · rfl

theorem one_le_roundHalfEven (x : ℚ) (h : 1 / 2 < x) : 1 ≤ roundHalfEven x := by
  have hf : 0 ≤ ⌊x⌋ := Int.floor_nonneg.mpr (by linarith)
  unfold roundHalfEven
  split
  · rename_i h1
    by_contra hc
    have h0 : ⌊x⌋ = 0 := by omega
    rw [h0] at h1
    simp at h1
    linarith
  · split
    · omega
    · split
      · rename_i h1 h2 h3
        by_contra hc
        have h0 : ⌊x⌋ = 0 := by omega
        rw [h0] at h1 h2
        simp at h1 h2
        linarith
      · omega

theorem ulpExponent_ge (x : ℚ) : -1074 ≤ ulpExponent x := le_max_right _ _

theorem ulpExponent_le_zero (x : ℚ) (hx : 0 < x) (n : Int) (hn : x ≤ n) (hmax : n ≤ INT_MAX) :
    ulpExponent x ≤ 0 := by
  have h1 : x < ((2 : ℕ) : ℚ) ^ (32 : Int) := by
    have : (n : ℚ) ≤ (INT_MAX : ℚ) := by exact_mod_cast hmax
    have h2 : (INT_MAX : ℚ) < ((2 : ℕ) : ℚ) ^ (32 : Int) := by norm_num [INT_MAX]
    linarith
  have h3 : Int.log 2 x < 32 := (Int.lt_zpow_iff_log_lt (by norm_num) hx).mp h1
  unfold ulpExponent
  exact max_le (by omega) (by norm_num)

theorem two_zpow_pos (e : Int) : (0 : ℚ) < 2 ^ e := zpow_pos (by norm_num) e

theorem int_div_zpow (n e : Int) (he : e ≤ 0) :
    ∃ m : Int, (n : ℚ) / 2 ^ e = m := by
  refine ⟨n * 2 ^ (-e).toNat, ?_⟩
  have h : (2 : ℚ) ^ e = ((2 : ℚ) ^ (-e).toNat)⁻¹ := by
    rw [← zpow_natCast, Int.toNat_of_nonneg (by omega), zpow_neg, inv_inv]
  rw [h]
  push_cast
  rw [div_inv_eq_mul]

theorem roundMagnitude_bounds (x : ℚ) (hx : 0 < x) (n : Int) (hn : x ≤ n) (hmax : n ≤ INT_MAX) :
    ∃ q : ℚ, roundMagnitude x = some q ∧ q ≤ n
      ∧ (∀ m : Int, (m : ℚ) ≤ x → (m : ℚ) ≤ q)
      ∧ ((2 : ℚ) ^ (-1075 : Int) < x → 0 < q) := by
  have he := ulpExponent_le_zero x hx n hn hmax
  have hp := two_zpow_pos (ulpExponent x)
  have hup : (roundHalfEven (x / 2 ^ ulpExponent x) : ℚ) * 2 ^ ulpExponent x ≤ n := by
    obtain ⟨m, hm⟩ := int_div_zpow n (ulpExponent x) he
    have h1 : x / 2 ^ ulpExponent x ≤ m := by
      rw [← hm]
      exact div_le_div_of_nonneg_right hn (le_of_lt hp)
    have h2 : ((roundHalfEven (x / 2 ^ ulpExponent x) : Int) : ℚ) ≤ m := by
      exact_mod_cast roundHalfEven_le _ m h1
    calc (roundHalfEven (x / 2 ^ ulpExponent x) : ℚ) * 2 ^ ulpExponent x
        ≤ m * 2 ^ ulpExponent x := mul_le_mul_of_nonneg_right h2 (le_of_lt hp)
      _ = n := by rw [← hm, div_mul_cancel₀ _ (ne_of_gt hp)]
  have hlt : ¬ ((2 : ℚ) ^ (1024 : Int) ≤
      (roundHalfEven (x / 2 ^ ulpExponent x) : ℚ) * 2 ^ ulpExponent x) := by
    have : (n : ℚ) ≤ (INT_MAX : ℚ) := by exact_mod_cast hmax
    have h2 : (INT_MAX : ℚ) < (2 : ℚ) ^ (1024 : Int) := by norm_num [INT_MAX]
    intro h
    linarith
  refine ⟨_, by unfold roundMagnitude; rw [if_neg hlt], hup, ?_, ?_⟩
  · intro m hm
    obtain ⟨m1, hm1⟩ := int_div_zpow m (ulpExponent x) he
    have h1 : (m1 : ℚ) ≤ x / 2 ^ ulpExponent x := by
      rw [← hm1]
      exact div_le_div_of_nonneg_right hm (le_of_lt hp)
    have h2 : (m1 : ℚ) ≤ ((roundHalfEven (x / 2 ^ ulpExponent x) : Int) : ℚ) := by
      exact_mod_cast le_roundHalfEven _ m1 h1
    calc (m : ℚ) = m1 * 2 ^ ulpExponent x := by rw [← hm1, div_mul_cancel₀ _ (ne_of_gt hp)]
      _ ≤ _ := mul_le_mul_of_nonneg_right h2 (le_of_lt hp)
  · intro hlow
    have h1 : 1 / 2 < x / 2 ^ ulpExponent x := by
      rw [lt_div_iff₀ hp]
      rcases le_total (Int.log 2 x - 52) (-1074) with hc | hc
      · have : ulpExponent x = -1074 := max_eq_right hc
        rw [this]
        have h3 : (1 / 2 : ℚ) * 2 ^ (-1074 : Int) = 2 ^ (-1075 : Int) := by
          rw [show (-1075 : Int) = -1074 - 1 by norm_num, zpow_sub₀ (by norm_num)]
          simp
          ring
        rw [h3]
        exact hlow
      · have : ulpExponent x = Int.log 2 x - 52 := max_eq_left hc
        rw [this]
        have h3 : ((2 : ℕ) : ℚ) ^ Int.log 2 x ≤ x := Int.zpow_log_le_self (by norm_num) hx
        have h4 : (1 / 2 : ℚ) * 2 ^ (Int.log 2 x - 52) < 2 ^ Int.log 2 x := by
          rw [zpow_sub₀ (by norm_num)]
          have hp2 := two_zpow_pos (Int.log 2 x)
          have : (1 / 2 : ℚ) * (2 ^ Int.log 2 x / 2 ^ (52 : Int))
              = 2 ^ Int.log 2 x * (1 / 2 / 2 ^ (52 : Int)) := by ring
          rw [this]
          have h5 : (1 / 2 / 2 ^ (52 : Int) : ℚ) < 1 := by norm_num
          nlinarith
        simp only [Nat.cast_ofNat] at h3
        linarith
    have h2 := one_le_roundHalfEven _ h1
    have h3 : (1 : ℚ) ≤ ((roundHalfEven (x / 2 ^ ulpExponent x) : Int) : ℚ) := by
      exact_mod_cast h2
    have := mul_pos (lt_of_lt_of_le one_pos h3) hp
    exact this

theorem roundMagnitude_underflow (x : ℚ) (hx : 0 < x) (h : x ≤ (2 : ℚ) ^ (-1075 : Int)) :
    roundMagnitude x = some 0 := by
  have h1 : Int.log 2 x ≤ -1075 := by
    have := Int.log_mono_right (b := 2) hx (show x ≤ ((2 : ℕ) : ℚ) ^ (-1075 : Int) by simpa using h)
    rwa [Int.log_zpow (by norm_num)] at this
  have he : ulpExponent x = -1074 := max_eq_right (by omega)
  have hp := two_zpow_pos (-1074)
  have h2 : x / 2 ^ (-1074 : Int) ≤ 1 / 2 := by
    rw [div_le_iff₀ hp]
    have h3 : (1 / 2 : ℚ) * 2 ^ (-1074 : Int) = 2 ^ (-1075 : Int) := by
      rw [show (-1075 : Int) = -1074 - 1 by norm_num, zpow_sub₀ (by norm_num)]
      simp
      ring
    rw [h3]
    exact h
  have h0 : 0 ≤ x / 2 ^ (-1074 : Int) := le_of_lt (div_pos hx hp)
  unfold roundMagnitude
  rw [he, roundHalfEven_of_le_half _ h0 h2]
  simp
  positivity

theorem roundHalfEven_intCast (n : Int) : roundHalfEven (n : ℚ) = n :=
  le_antisymm (roundHalfEven_le _ n (le_refl _)) (le_roundHalfEven _ n (le_refl _))

/-- Powers of two between the smallest subnormal and the largest binade are
binary64 values: rounding leaves them unchanged. -/
theorem roundDouble_two_zpow (z : Int) (h0 : -1074 ≤ z) (h1 : z ≤ 1023) :
    roundDouble ((2 : ℚ) ^ z) = some ((2 : ℚ) ^ z) := by
  have hpos := two_zpow_pos z
  have hlog : Int.log 2 ((2 : ℚ) ^ z) = z := by
    have := Int.log_zpow (R := ℚ) (b := 2) (by norm_num) z
    simpa using this
  have hmax : max (z - 52) (-1074) ≤ z := max_le (by omega) h0
  have hq : (2 : ℚ) ^ z / 2 ^ max (z - 52) (-1074)
      = (((2 : Int) ^ (z - max (z - 52) (-1074)).toNat : Int) : ℚ) := by
    rw [← zpow_sub₀ (by norm_num)]
    push_cast
    rw [← zpow_natCast, Int.toNat_of_nonneg (by omega)]
  have hy : ((((2 : Int) ^ (z - max (z - 52) (-1074)).toNat : Int) : Int) : ℚ)
      * 2 ^ max (z - 52) (-1074) = 2 ^ z := by
    rw [← hq, div_mul_cancel₀ _ (ne_of_gt (two_zpow_pos _))]
  have hlt : ¬ ((2 : ℚ) ^ (1024 : Int) ≤ 2 ^ z) := by
    rw [not_le]
    exact zpow_lt_zpow_right₀ (by norm_num) (by omega)
  unfold roundDouble
  rw [if_neg (not_lt.mpr (le_of_lt hpos))]
  unfold roundMagnitude ulpExponent
  rw [hlog, hq, roundHalfEven_intCast, hy, if_neg hlt]

/-- Bounds on `render_steps` for positive settings whose quotient does not
underflow and is at most the `int` value `n`. -/
theorem render_steps_bounds (cfg : Config) (hs : 0 < cfg.step_size)
    (hr : 0 < cfg.render_step_size)
    (hlow : (2 : ℚ) ^ (-1075 : Int) < cfg.render_step_size / cfg.step_size)
    (n : Int) (hn : cfg.render_step_size / cfg.step_size ≤ n) (hmax : n ≤ INT_MAX) :
    ∃ k : Int, render_steps cfg = some k ∧ 1 ≤ k ∧ k ≤ n
      ∧ ∀ m : Int, (m : ℚ) ≤ cfg.render_step_size / cfg.step_size → m ≤ k := by
  have hx : 0 < cfg.render_step_size / cfg.step_size := div_pos hr hs
  obtain ⟨q, hq, hqn, hqm, hqpos⟩ := roundMagnitude_bounds _ hx n hn hmax
  have hq0 := hqpos hlow
  have hd : doubleDiv cfg.render_step_size cfg.step_size = some q := by
    unfold doubleDiv roundDouble
    rw [if_neg (ne_of_gt hs), if_neg (not_lt.mpr (le_of_lt hx)), hq]
  have h1 : 1 ≤ ⌈q⌉ := Int.one_le_ceil_iff.mpr hq0
  have h2 : ⌈q⌉ ≤ n := Int.ceil_le.mpr hqn
  have h0 : (0 : ℚ) ≤ ((⌈q⌉ : Int) : ℚ) := by
    exact_mod_cast (by omega : (0 : Int) ≤ ⌈q⌉)
  have hmin : INT_MIN ≤ ⌈q⌉ := by
    unfold INT_MIN
    omega
  refine ⟨⌈q⌉, ?_, h1, h2, ?_⟩
  · simp only [render_steps, hd, ceil, castInt, h0, if_true, Int.floor_intCast, hmin,
      h2.trans hmax, and_self]
  · intro m hm
    have h3 : (m : ℚ) ≤ ((⌈q⌉ : Int) : ℚ) := (hqm m hm).trans (Int.le_ceil q)
    exact_mod_cast h3

theorem two_zpow_neg_lt_one_quarter : (2 : ℚ) ^ (-1075 : Int) < 1 / 4 := by
  have h : (2 : ℚ) ^ (-1075 : Int) < 2 ^ (-2 : Int) :=
    zpow_lt_zpow_right₀ (by norm_num) (by norm_num)
  have h2 : (2 : ℚ) ^ (-2 : Int) = 1 / 4 := by norm_num
  rwa [h2] at h

theorem render_steps_of_eq (cfg : Config) (heq : cfg.render_step_size = cfg.step_size)
    (hs : 0 < cfg.step_size) : render_steps cfg = some 1 := by
  have hq : cfg.render_step_size / cfg.step_size = 1 := by
    rw [heq]
    exact div_self (ne_of_gt hs)
  obtain ⟨k, hk, h1, h2, -⟩ := render_steps_bounds cfg hs (by rw [heq]; exact hs)
    (by rw [hq]; exact lt_trans two_zpow_neg_lt_one_quarter (by norm_num)) 1
    (by rw [hq]; norm_num) (by decide)
  have : k = 1 := by omega
  rwa [this] at hk


theorem Exec.call_trace (M : Modules W) (c : Call) (e : Exec W) :
    (e.call M c).trace = e.trace ++ [c] := rfl

theorem Exec.calls_trace (M : Modules W) (cs : List Call) (e : Exec W) :
    (e.calls M cs).trace = e.trace ++ cs := by
  induction cs generalizing e with
  | nil => simp [Exec.calls]
  | cons c cs ih =>
    have h := ih (e.call M c)
    simp only [Exec.calls, List.foldl_cons] at h ⊢
    rw [h, Exec.call_trace]
    simp

theorem cmod_of_pos (a k : Int) (hk : 0 < k) : cmod a k = some (Int.tmod a k) := by
  unfold cmod
  have h0 : k ≠ 0 := by omega
  have h1 : k ≠ -1 := by omega
  simp [h0, h1]

theorem iteration_of_pos (cfg : Config) (M : Modules W) (k : Int) (hk : 0 < k)
    (s : LoopState W) : iteration cfg M k s = some (step cfg M k s) := by
  simp [iteration, cmod_of_pos _ _ hk, step]

theorem renderScene_trace (cfg : Config) (M : Modules W) (s : LoopState W) :
    (renderScene cfg M s).exec.trace
      = s.exec.trace ++ renderCalls cfg s.step_number s.render_frame := by
  unfold renderScene renderCalls
  by_cases h : (cfg.img_output && decide (s.step_number > 1000)) = true
  · simp [h, Exec.calls_trace, Exec.call_trace]
  · simp [h, Exec.calls_trace]

theorem updateModules_trace (cfg : Config) (M : Modules W) (s : LoopState W) :
    (updateModules cfg M s).exec.trace
      = s.exec.trace ++ moduleCalls cfg (M.getChTime s.exec.world)
          (M.getDisplacement s.exec.world) (M.getThrottle s.exec.world) s.shoe_forces
        ++ [Call.coutStep (wrap32 (s.step_number + 1)) (M.getChTime s.exec.world)
            (M.getNumIterations (s.exec.calls M (moduleCalls cfg (M.getChTime s.exec.world)
              (M.getDisplacement s.exec.world) (M.getThrottle s.exec.world)
              s.shoe_forces)).world)] := by
  simp only [updateModules, Exec.call_trace, Exec.calls_trace]

theorem simulationLoop_of_pos (cfg : Config) (M : Modules W) (k : Int) (hk : 0 < k)
    (answers : List Bool) (s : LoopState W) :
    simulationLoop cfg M k answers s
      = some (if leadingContinues answers < answers.length
          then (enter M (steps cfg M k (leadingContinues answers) s), true)
          else (steps cfg M k (leadingContinues answers) s, false)) := by
  induction answers generalizing s with
  | nil => simp [simulationLoop, leadingContinues, steps]
  | cons b rest ih =>
    cases b with
    | false => simp [simulationLoop, leadingContinues, steps, enter]
    | true =>
      simp only [simulationLoop, iteration_of_pos cfg M k hk]
      rw [ih]
      simp [leadingContinues, steps, enter]

theorem renderScene_shoe_forces (cfg : Config) (M : Modules W) (s : LoopState W) :
    (renderScene cfg M s).shoe_forces = s.shoe_forces := rfl

theorem renderScene_step_number (cfg : Config) (M : Modules W) (s : LoopState W) :
    (renderScene cfg M s).step_number = s.step_number := rfl

theorem step_trace (cfg : Config) (M : Modules W) (k : Int) (s : LoopState W) :
    ∃ (time post_input throttle_input : ℚ) (n : Int),
      (step cfg M k s).exec.trace
        = s.exec.trace
          ++ (if Int.tmod s.step_number k = 0
              then renderCalls cfg s.step_number s.render_frame else [])
          ++ moduleCalls cfg time post_input throttle_input s.shoe_forces
          ++ [Call.coutStep (wrap32 (s.step_number + 1)) time n] := by
  unfold step
  by_cases h : Int.tmod s.step_number k = 0
  · have h1 := updateModules_trace cfg M (renderScene cfg M s)
    rw [renderScene_trace] at h1
    rw [if_pos h, if_pos h]
    exact ⟨_, _, _, _, h1⟩
  · have h1 := updateModules_trace cfg M s
    rw [if_neg h, if_neg h, List.append_nil]
    exact ⟨_, _, _, _, h1⟩

theorem step_step_number (cfg : Config) (M : Modules W) (k : Int) (s : LoopState W) :
    (step cfg M k s).step_number = wrap32 (s.step_number + 1) := by
  unfold step
  split <;> rfl

theorem step_render_frame (cfg : Config) (M : Modules W) (k : Int) (s : LoopState W) :
    (step cfg M k s).render_frame
      = if Int.tmod s.step_number k = 0 then wrap32 (s.render_frame + 1)
        else s.render_frame := by
  unfold step
  split <;> rfl

theorem moduleTrace_append (a b : List Call) :
    moduleTrace (a ++ b) = moduleTrace a ++ moduleTrace b := by
  simp [moduleTrace]

theorem advanceSteps_append (a b : List Call) :
    advanceSteps (a ++ b) = advanceSteps a ++ advanceSteps b := by
  simp [advanceSteps]

theorem framesDrawn_append (a b : List Call) :
    framesDrawn (a ++ b) = framesDrawn a + framesDrawn b := by
  simp [framesDrawn]

theorem macroSteps_append (a b : List Call) :
    macroSteps (a ++ b) = macroSteps a + macroSteps b := by
  simp [macroSteps]

theorem moduleTrace_renderCalls (cfg : Config) (a b : Int) :
    moduleTrace (renderCalls cfg a b) = [] := by
  unfold renderCalls moduleTrace
  split <;> simp [Call.moduleCall]

theorem advanceSteps_renderCalls (cfg : Config) (a b : Int) :
    advanceSteps (renderCalls cfg a b) = [] := by
  unfold renderCalls advanceSteps
  split <;> simp [Call.advanceStep]

theorem macroSteps_renderCalls (cfg : Config) (a b : Int) :
    macroSteps (renderCalls cfg a b) = 0 := by
  unfold renderCalls macroSteps
  split <;> simp [Call.isRigAdvance]

theorem framesDrawn_renderCalls (cfg : Config) (a b : Int) :
    framesDrawn (renderCalls cfg a b) = 1 := by
  unfold renderCalls framesDrawn
  split <;> simp [Call.isDrawAll]

theorem moduleTrace_moduleCalls (cfg : Config) (t p th : ℚ) (f : TerrainForces) :
    moduleTrace (moduleCalls cfg t p th f) = macroStepOrder := by
  simp [moduleTrace, moduleCalls, macroStepOrder, Call.moduleCall]

theorem advanceSteps_moduleCalls (cfg : Config) (t p th : ℚ) (f : TerrainForces) :
    advanceSteps (moduleCalls cfg t p th f) = [cfg.step_size, cfg.step_size, cfg.step_size] := by
  simp [advanceSteps, moduleCalls, Call.advanceStep]

theorem macroSteps_moduleCalls (cfg : Config) (t p th : ℚ) (f : TerrainForces) :
    macroSteps (moduleCalls cfg t p th f) = 1 := by
  simp [macroSteps, moduleCalls, Call.isRigAdvance]

theorem framesDrawn_moduleCalls (cfg : Config) (t p th : ℚ) (f : TerrainForces) :
    framesDrawn (moduleCalls cfg t p th f) = 0 := by
  simp [framesDrawn, moduleCalls, Call.isDrawAll]

theorem enter_trace (M : Modules W) (s : LoopState W) :
    (enter M s).exec.trace = s.exec.trace ++ [Call.deviceRun] := rfl

theorem moduleTrace_step_enter (cfg : Config) (M : Modules W) (k : Int) (s : LoopState W) :
    moduleTrace (step cfg M k (enter M s)).exec.trace
      = moduleTrace s.exec.trace ++ macroStepOrder := by
  obtain ⟨t, p, th, n, h⟩ := step_trace cfg M k (enter M s)
  have h1 : moduleTrace [Call.deviceRun] = [] := rfl
  have h2 : moduleTrace [Call.coutStep (wrap32 ((enter M s).step_number + 1)) t n] = [] := rfl
  rw [h, enter_trace]
  simp only [moduleTrace_append, moduleTrace_moduleCalls, h1, h2]
  split
  · simp [moduleTrace_renderCalls]
  · simp [moduleTrace]

theorem advanceSteps_step_enter (cfg : Config) (M : Modules W) (k : Int) (s : LoopState W) :
    advanceSteps (step cfg M k (enter M s)).exec.trace
      = advanceSteps s.exec.trace ++ List.replicate 3 cfg.step_size := by
  obtain ⟨t, p, th, n, h⟩ := step_trace cfg M k (enter M s)
  have h1 : advanceSteps [Call.deviceRun] = [] := rfl
  have h2 : advanceSteps [Call.coutStep (wrap32 ((enter M s).step_number + 1)) t n] = [] := rfl
  rw [h, enter_trace]
  simp only [advanceSteps_append, advanceSteps_moduleCalls, h1, h2]
  split
  · simp [advanceSteps_renderCalls, List.replicate]
  · simp [advanceSteps, List.replicate]

theorem macroSteps_step_enter (cfg : Config) (M : Modules W) (k : Int) (s : LoopState W) :
    macroSteps (step cfg M k (enter M s)).exec.trace = macroSteps s.exec.trace + 1 := by
  obtain ⟨t, p, th, n, h⟩ := step_trace cfg M k (enter M s)
  have h1 : macroSteps [Call.deviceRun] = 0 := rfl
  have h2 : macroSteps [Call.coutStep (wrap32 ((enter M s).step_number + 1)) t n] = 0 := rfl
  rw [h, enter_trace]
  simp only [macroSteps_append, macroSteps_moduleCalls, h1, h2]
  split
  · simp [macroSteps_renderCalls]
  · simp [macroSteps]

theorem framesDrawn_step_enter (cfg : Config) (M : Modules W) (k : Int) (s : LoopState W) :
    framesDrawn (step cfg M k (enter M s)).exec.trace
      = framesDrawn s.exec.trace + (if Int.tmod s.step_number k = 0 then 1 else 0) := by
  obtain ⟨t, p, th, n, h⟩ := step_trace cfg M k (enter M s)
  have h1 : framesDrawn [Call.deviceRun] = 0 := rfl
  have h2 : framesDrawn [Call.coutStep (wrap32 (s.step_number + 1)) t n] = 0 := rfl
  have he : (enter M s).step_number = s.step_number := rfl
  rw [h, enter_trace]
  simp only [framesDrawn_append, framesDrawn_moduleCalls, h1, he, h2]
  split
  · simp [framesDrawn_renderCalls]
  · simp [framesDrawn]

theorem wrap32_wrap32_add (a b : Int) : wrap32 (wrap32 a + b) = wrap32 (a + b) := by
  unfold wrap32
  omega

theorem wrap32_of_range (a : Int) (h0 : INT_MIN ≤ a) (h1 : a ≤ INT_MAX) : wrap32 a = a := by
  unfold wrap32
  unfold INT_MIN at h0
  unfold INT_MAX at h1
  omega

theorem steps_moduleTrace (cfg : Config) (M : Modules W) (k : Int) (n : Nat)
    (s : LoopState W) :
    moduleTrace (steps cfg M k n s).exec.trace
      = moduleTrace s.exec.trace ++ (List.replicate n macroStepOrder).flatten := by
  induction n generalizing s with
  | zero => simp [steps]
  | succ n ih =>
    simp only [steps]
    rw [ih, moduleTrace_step_enter]
    simp [List.replicate_succ]

theorem steps_advanceSteps (cfg : Config) (M : Modules W) (k : Int) (n : Nat)
    (s : LoopState W) :
    advanceSteps (steps cfg M k n s).exec.trace
      = advanceSteps s.exec.trace ++ List.replicate (3 * n) cfg.step_size := by
  induction n generalizing s with
  | zero => simp [steps]
  | succ n ih =>
    simp only [steps]
    rw [ih, advanceSteps_step_enter, List.append_assoc, ← List.replicate_add]
    congr 2
    omega

theorem steps_macroSteps (cfg : Config) (M : Modules W) (k : Int) (n : Nat)
    (s : LoopState W) :
    macroSteps (steps cfg M k n s).exec.trace = macroSteps s.exec.trace + n := by
  induction n generalizing s with
  | zero => simp [steps]
  | succ n ih =>
    simp only [steps]
    rw [ih, macroSteps_step_enter]
    omega

theorem wrap32_idem (a : Int) : wrap32 (wrap32 a) = wrap32 a := by
  unfold wrap32
  omega

theorem steps_step_number (cfg : Config) (M : Modules W) (k : Int) (n : Nat)
    (s : LoopState W) (hs : wrap32 s.step_number = s.step_number) :
    (steps cfg M k n s).step_number = wrap32 (s.step_number + n) := by
  induction n generalizing s with
  | zero => simpa [steps] using hs.symm
  | succ n ih =>
    have he : (enter M s).step_number = s.step_number := rfl
    simp only [steps]
    rw [ih _ (by rw [step_step_number, wrap32_idem]), step_step_number, he, wrap32_wrap32_add]
    congr 1
    push_cast
    omega

theorem Quiet.append {a b : List Call} (ha : Quiet a) (hb : Quiet b) : Quiet (a ++ b) := by
  intro c hc
  rcases List.mem_append.mp hc with h | h
  · exact ha c h
  · exact hb c h

theorem advanceStep_of_moduleCall_none (c : Call) (h : c.moduleCall = none) :
    c.advanceStep = none := by
  cases c <;> simp_all [Call.moduleCall, Call.advanceStep]

theorem isRigAdvance_of_moduleCall_none (c : Call) (h : c.moduleCall = none) :
    c.isRigAdvance = false := by
  cases c <;> simp_all [Call.moduleCall, Call.isRigAdvance]

theorem Quiet.moduleTrace {t : List Call} (h : Quiet t) : moduleTrace t = [] := by
  unfold TrackTestRigBand.moduleTrace
  rw [List.filterMap_eq_nil_iff]
  intro c hc
  exact (h c hc).1

theorem Quiet.advanceSteps {t : List Call} (h : Quiet t) : advanceSteps t = [] := by
  unfold TrackTestRigBand.advanceSteps
  rw [List.filterMap_eq_nil_iff]
  intro c hc
  exact advanceStep_of_moduleCall_none c (h c hc).1

theorem Quiet.macroSteps {t : List Call} (h : Quiet t) : macroSteps t = 0 := by
  unfold TrackTestRigBand.macroSteps
  rw [List.countP_eq_zero]
  intro c hc
  simp [isRigAdvance_of_moduleCall_none c (h c hc).1]

theorem Quiet.framesDrawn {t : List Call} (h : Quiet t) : framesDrawn t = 0 := by
  unfold TrackTestRigBand.framesDrawn
  rw [List.countP_eq_zero]
  intro c hc
  simp [(h c hc).2]

theorem quiet_initializeRigCalls : Quiet initializeRigCalls := by
  simp [Quiet, initializeRigCalls, Call.moduleCall, Call.isDrawAll]

theorem quiet_createAppCalls (cfg : Config) (p : ChVector) : Quiet (createAppCalls cfg p) := by
  simp [Quiet, createAppCalls, Call.moduleCall, Call.isDrawAll]

theorem quiet_createDriverCalls (cfg : Config) : Quiet (createDriverCalls cfg) := by
  simp [Quiet, createDriverCalls, Call.moduleCall, Call.isDrawAll]

theorem quiet_solverCalls : Quiet solverCalls := by
  simp [Quiet, solverCalls, Call.moduleCall, Call.isDrawAll]

theorem createRig_quiet (cfg : Config) (M : Modules W) (e : Exec W) (h : Quiet e.trace) :
    match createRig cfg M e with
    | Except.error e1 => Quiet e1.trace
    | Except.ok e1 => Quiet e1.trace := by
  unfold createRig
  by_cases hj : cfg.use_JSON = true
  · simp only [hj, if_true, Exec.call_trace]
    refine Quiet.append h ?_
    simp [Quiet, Call.moduleCall, Call.isDrawAll]
  · simp only [hj]
    cases cfg.type with
    | BAND_BUSHING =>
      simp only [Exec.calls, List.foldl, Exec.call_trace]
      refine Quiet.append (Quiet.append h ?_) ?_
      · simp [Quiet, Call.moduleCall, Call.isDrawAll]
      · simp [Quiet, Call.moduleCall, Call.isDrawAll]
    | BAND_ANCF =>
      simp only [Exec.calls, List.foldl, Exec.call_trace]
      refine Quiet.append (Quiet.append h ?_) ?_
      · simp [Quiet, Call.moduleCall, Call.isDrawAll]
      · simp [Quiet, Call.moduleCall, Call.isDrawAll]
    | other tag =>
      simp only [Exec.call_trace]
      refine Quiet.append h ?_
      simp [Quiet, Call.moduleCall, Call.isDrawAll]

theorem assemble_trace (cfg : Config) (M : Modules W) (e : Exec W) :
    (assemble cfg M e).trace
      = e.trace ++ initializeRigCalls
        ++ createAppCalls cfg (M.getSprocketPos (e.calls M initializeRigCalls).world)
        ++ createDriverCalls cfg := by
  simp only [assemble, Exec.calls_trace]

theorem assemble_quiet (cfg : Config) (M : Modules W) (e : Exec W) (h : Quiet e.trace) :
    Quiet (assemble cfg M e).trace := by
  rw [assemble_trace]
  exact ((h.append quiet_initializeRigCalls).append (quiet_createAppCalls _ _)).append
    (quiet_createDriverCalls _)

theorem initializeOutput_quiet (cfg : Config) (M : Modules W) (e : Exec W)
    (h : Quiet e.trace) :
    match initializeOutput cfg M e with
    | Except.error e1 => Quiet e1.trace
    | Except.ok e1 => Quiet e1.trace := by
  unfold initializeOutput
  by_cases hr : M.makeDirectoryResult e.world (out_dir cfg) < 0
  · simp only [hr, if_true, Exec.call_trace]
    refine Quiet.append (Quiet.append h ?_) ?_
    · simp [Quiet, Call.moduleCall, Call.isDrawAll]
    · simp [Quiet, Call.moduleCall, Call.isDrawAll]
  · simp only [hr, if_false, Exec.call_trace]
    refine Quiet.append h ?_
    simp [Quiet, Call.moduleCall, Call.isDrawAll]

theorem loopEntry_quiet (M : Modules W) (e : Exec W) (h : Quiet e.trace) :
    Quiet (loopEntry M e).exec.trace := by
  simp only [loopEntry, initialLoopState, Exec.calls_trace]
  exact h.append quiet_solverCalls

theorem simulate_of_pos (cfg : Config) (M : Modules W) (answers : List Bool) (e : Exec W)
    (k : Int) (hk : render_steps cfg = some k) (hpos : 0 < k) :
    simulate cfg M answers e
      = some (if leadingContinues answers < answers.length
          then ⟨some 0, (enter M (steps cfg M k (leadingContinues answers)
                  (loopEntry M e))).exec.call M Call.deleteRig⟩
          else ⟨none, (steps cfg M k (leadingContinues answers) (loopEntry M e)).exec⟩) := by
  unfold simulate
  simp only [hk]
  rw [show initialLoopState (e.calls M solverCalls) = loopEntry M e from rfl,
    simulationLoop_of_pos cfg M k hpos]
  by_cases hlt : leadingContinues answers < answers.length
  · simp [hlt]
  · simp [hlt]

/-- The shape of every run of `main` for a positive `render_steps`: an early
return with code 1 and a quiet trace, or a run of the loop from a quiet trace. -/
theorem main_cases (cfg : Config) (M : Modules W) (w0 : W) (answers : List Bool)
    (k : Int) (hk : render_steps cfg = some k) (hpos : 0 < k) :
    (∃ e : Exec W, Quiet e.trace ∧ main cfg M w0 answers = some ⟨some 1, e⟩)
    ∨ (∃ e : Exec W, Quiet e.trace ∧
        main cfg M w0 answers
          = some (if leadingContinues answers < answers.length
              then ⟨some 0, (enter M (steps cfg M k (leadingContinues answers)
                      (loopEntry M e))).exec.call M Call.deleteRig⟩
              else ⟨none, (steps cfg M k (leadingContinues answers) (loopEntry M e)).exec⟩)) := by
  have key : ∀ e0 : Exec W, Quiet e0.trace →
      (∃ e : Exec W, Quiet e.trace ∧
        (match createRig cfg M e0 with
          | Except.error e => some ⟨some 1, e⟩
          | Except.ok e1 =>
            match initializeOutput cfg M (assemble cfg M e1) with
            | Except.error e => some ⟨some 1, e⟩
            | Except.ok e2 => simulate cfg M answers e2) = some (Run.mk (some 1) e))
      ∨ (∃ e : Exec W, Quiet e.trace ∧
        (match createRig cfg M e0 with
          | Except.error e => some ⟨some 1, e⟩
          | Except.ok e1 =>
            match initializeOutput cfg M (assemble cfg M e1) with
            | Except.error e => some ⟨some 1, e⟩
            | Except.ok e2 => simulate cfg M answers e2)
          = some (if leadingContinues answers < answers.length
              then ⟨some 0, (enter M (steps cfg M k (leadingContinues answers)
                      (loopEntry M e))).exec.call M Call.deleteRig⟩
              else ⟨none, (steps cfg M k (leadingContinues answers) (loopEntry M e)).exec⟩)) := by
    intro e0 h0
    have h1 := createRig_quiet cfg M e0 h0
    cases hc : createRig cfg M e0 with
    | error e =>
      rw [hc] at h1
      exact Or.inl ⟨e, h1, rfl⟩
    | ok e1 =>
      rw [hc] at h1
      dsimp only
      have h2 := initializeOutput_quiet cfg M _ (assemble_quiet cfg M e1 h1)
      cases ho : initializeOutput cfg M (assemble cfg M e1) with
      | error e =>
        rw [ho] at h2
        exact Or.inl ⟨e, h2, rfl⟩
      | ok e2 =>
        rw [ho] at h2
        exact Or.inr ⟨e2, h2, simulate_of_pos cfg M answers e2 k hk hpos⟩
  refine key (logBanner cfg M w0) ?_
  simp [logBanner, Exec.call_trace, Quiet, Call.moduleCall, Call.isDrawAll]

theorem exit_trace (M : Modules W) (s : LoopState W) :
    ((enter M s).exec.call M Call.deleteRig).trace
      = s.exec.trace ++ [Call.deviceRun, Call.deleteRig] := by
  simp [Exec.call_trace, enter_trace]

theorem quiet_exit_calls : Quiet [Call.deviceRun, Call.deleteRig] := by
  simp [Quiet, Call.moduleCall, Call.isDrawAll]

theorem leadingContinues_replicate (n : Nat) :
    leadingContinues (List.replicate n true) = n := by
  induction n with
  | zero => rfl
  | succ n ih =>
    simp only [leadingContinues, List.replicate_succ, List.takeWhile_cons, if_true,
      List.length_cons] at ih ⊢
    rw [ih]

/-- Summary of every run of `main` for a positive `render_steps`: the exit code,
the number of macro-steps, the module calls and the steps passed to `Advance`. -/
theorem main_summary (cfg : Config) (M : Modules W) (w0 : W) (answers : List Bool)
    (k : Int) (hk : render_steps cfg = some k) (hpos : 0 < k) :
    ∃ (run : Run W) (n : Nat), main cfg M w0 answers = some run
      ∧ macroSteps run.exec.trace = n
      ∧ moduleTrace run.exec.trace = (List.replicate n macroStepOrder).flatten
      ∧ advanceSteps run.exec.trace = List.replicate (3 * n) cfg.step_size
      ∧ ((run.exit = some 1 ∧ n = 0)
        ∨ (n = leadingContinues answers
            ∧ run.exit = if leadingContinues answers < answers.length then some 0 else none)) := by
  rcases main_cases cfg M w0 answers k hk hpos with ⟨e, hq, hm⟩ | ⟨e, hq, hm⟩
  · refine ⟨_, 0, hm, hq.macroSteps, ?_, ?_, Or.inl ⟨rfl, rfl⟩⟩
    · simpa using hq.moduleTrace
    · simpa using hq.advanceSteps
  · have hq1 := loopEntry_quiet M e hq
    refine ⟨_, leadingContinues answers, hm, ?_, ?_, ?_, Or.inr ⟨rfl, ?_⟩⟩
    · by_cases hlt : leadingContinues answers < answers.length
      · simp only [hlt, if_true, exit_trace, macroSteps_append, steps_macroSteps,
          hq1.macroSteps, quiet_exit_calls.macroSteps]
        omega
      · simp only [hlt, if_false, steps_macroSteps, hq1.macroSteps]
        omega
    · by_cases hlt : leadingContinues answers < answers.length
      · simp only [hlt, if_true, exit_trace, moduleTrace_append, steps_moduleTrace,
          hq1.moduleTrace, quiet_exit_calls.moduleTrace]
        simp
      · simp only [hlt, if_false, steps_moduleTrace, hq1.moduleTrace]
        simp
    · by_cases hlt : leadingContinues answers < answers.length
      · simp only [hlt, if_true, exit_trace, advanceSteps_append, steps_advanceSteps,
          hq1.advanceSteps, quiet_exit_calls.advanceSteps]
        simp
      · simp only [hlt, if_false, steps_advanceSteps, hq1.advanceSteps]
        simp
    · by_cases hlt : leadingContinues answers < answers.length
      · simp [hlt]
      · simp [hlt]

theorem render_steps_defaultConfig : render_steps defaultConfig = some 1 :=
  render_steps_of_eq defaultConfig rfl (by norm_num [defaultConfig])

theorem framesDrawn_step (cfg : Config) (M : Modules W) (k : Int) (s : LoopState W) :
    framesDrawn (step cfg M k s).exec.trace
      = framesDrawn s.exec.trace + (if Int.tmod s.step_number k = 0 then 1 else 0) := by
  obtain ⟨t, p, th, n, h⟩ := step_trace cfg M k s
  have h2 : framesDrawn [Call.coutStep (wrap32 (s.step_number + 1)) t n] = 0 := rfl
  rw [h]
  simp only [framesDrawn_append, framesDrawn_moduleCalls, h2]
  split
  · simp [framesDrawn_renderCalls]
  · simp [framesDrawn]

theorem steps_framesDrawn_one (cfg : Config) (M : Modules W) (n : Nat) (s : LoopState W) :
    framesDrawn (steps cfg M 1 n s).exec.trace = framesDrawn s.exec.trace + n := by
  induction n generalizing s with
  | zero => simp [steps]
  | succ n ih =>
    simp only [steps]
    rw [ih, framesDrawn_step_enter, Int.tmod_one]
    simp only [if_true]
    omega

theorem steps_render_frame_one (cfg : Config) (M : Modules W) (n : Nat) (s : LoopState W)
    (hs : wrap32 s.render_frame = s.render_frame) :
    (steps cfg M 1 n s).render_frame = wrap32 (s.render_frame + n) := by
  induction n generalizing s with
  | zero => simpa [steps] using hs.symm
  | succ n ih =>
    have he1 : (enter M s).render_frame = s.render_frame := rfl
    have he2 : (enter M s).step_number = s.step_number := rfl
    have h1 : (step cfg M 1 (enter M s)).render_frame = wrap32 (s.render_frame + 1) := by
      rw [step_render_frame, Int.tmod_one, if_pos rfl, he1]
    simp only [steps]
    rw [ih _ (by rw [h1, wrap32_idem]), h1, wrap32_wrap32_add]
    congr 1
    push_cast
    omega

theorem initial_step_number_range (e : Exec W) :
    wrap32 (initialLoopState e).step_number = (initialLoopState e).step_number := by
  show wrap32 0 = 0
  decide

theorem initial_render_frame_range (e : Exec W) :
    wrap32 (initialLoopState e).render_frame = (initialLoopState e).render_frame := by
  show wrap32 0 = 0
  decide

theorem main_of_unsupported (cfg : Config) (M : Modules W) (w0 : W) (answers : List Bool)
    (e : Exec W) (h : createRig cfg M (logBanner cfg M w0) = Except.error e) :
    main cfg M w0 answers = some ⟨some 1, e⟩ := by
  unfold main
  rw [h]

theorem main_of_directory_failed (cfg : Config) (M : Modules W) (w0 : W)
    (answers : List Bool) (e1 : Exec W)
    (h : createRig cfg M (logBanner cfg M w0) = Except.ok e1)
    (hd : M.makeDirectoryResult (assemble cfg M e1).world (out_dir cfg) < 0) :
    main cfg M w0 answers
      = some ⟨some 1, ((assemble cfg M e1).call M (Call.makeDirectory (out_dir cfg))).call M
          (Call.coutLine ("Error creating directory " ++ out_dir cfg))⟩ := by
  unfold main
  rw [h]
  simp only [initializeOutput, hd, if_true]

theorem main_of_directory_ok (cfg : Config) (M : Modules W) (w0 : W)
    (answers : List Bool) (e1 : Exec W)
    (h : createRig cfg M (logBanner cfg M w0) = Except.ok e1)
    (hd : 0 ≤ M.makeDirectoryResult (assemble cfg M e1).world (out_dir cfg)) :
    main cfg M w0 answers
      = simulate cfg M answers ((assemble cfg M e1).call M (Call.makeDirectory (out_dir cfg))) := by
  unfold main
  rw [h]
  simp only [initializeOutput, not_lt.mpr hd, if_false]

theorem iteration_eq_some (cfg : Config) (M : Modules W) (k : Int) (s s1 : LoopState W)
    (h : iteration cfg M k s = some s1) : s1 = step cfg M k s := by
  unfold iteration at h
  cases hc : cmod s.step_number k with
  | none => rw [hc] at h; cases h
  | some r =>
    rw [hc] at h
    have hr : r = Int.tmod s.step_number k := by
      unfold cmod at hc
      split at hc
      · cases hc
      · split at hc
        · cases hc
        · exact (Option.some.inj hc).symm
    simp only [Option.some.injEq] at h
    rw [← h, hr]
    rfl

theorem step_extends_trace (cfg : Config) (M : Modules W) (k : Int) (s : LoopState W) :
    s.exec.trace <+: (step cfg M k s).exec.trace := by
  obtain ⟨t, p, th, n, h⟩ := step_trace cfg M k s
  rw [h, List.append_assoc, List.append_assoc]
  exact List.prefix_append _ _

theorem simulationLoop_extends_trace (cfg : Config) (M : Modules W) (k : Int)
    (answers : List Bool) (s s1 : LoopState W) (b : Bool)
    (h : simulationLoop cfg M k answers s = some (s1, b)) :
    s.exec.trace <+: s1.exec.trace := by
  induction answers generalizing s with
  | nil =>
    simp only [simulationLoop, Option.some.injEq, Prod.mk.injEq] at h
    rw [← h.1]
  | cons a rest ih =>
    cases a with
    | false =>
      simp only [simulationLoop, Option.some.injEq, Prod.mk.injEq] at h
      rw [← h.1]
      exact List.prefix_append _ _
    | true =>
      simp only [simulationLoop] at h
      cases hi : iteration cfg M k (LoopState.mk (s.exec.call M Call.deviceRun) s.shoe_forces
          s.step_number s.render_frame) with
      | none => rw [hi] at h; cases h
      | some s2 =>
        rw [hi] at h
        have h2 := ih s2 h
        have h3 := iteration_eq_some cfg M k _ s2 hi
        have h4 := step_extends_trace cfg M k (LoopState.mk (s.exec.call M Call.deviceRun)
          s.shoe_forces s.step_number s.render_frame)
        rw [← h3] at h4
        have h5 : s.exec.trace <+: (s.exec.call M Call.deviceRun).trace :=
          List.prefix_append _ _
        exact (h5.trans h4).trans h2

theorem simulate_extends_trace (cfg : Config) (M : Modules W) (answers : List Bool)
    (e : Exec W) (run : Run W) (h : simulate cfg M answers e = some run) :
    e.trace ++ solverCalls <+: run.exec.trace ∧ (run.exit = some 0 ∨ run.exit = none) := by
  unfold simulate at h
  cases hk : render_steps cfg with
  | none => rw [hk] at h; cases h
  | some k =>
    rw [hk] at h
    dsimp only at h
    cases hl : simulationLoop cfg M k answers (initialLoopState (e.calls M solverCalls)) with
    | none => rw [hl] at h; cases h
    | some r =>
      obtain ⟨s1, b⟩ := r
      rw [hl] at h
      have hp := simulationLoop_extends_trace cfg M k answers _ s1 b hl
      have h0 : (initialLoopState (e.calls M solverCalls)).exec.trace = e.trace ++ solverCalls :=
        Exec.calls_trace M solverCalls e
      rw [h0] at hp
      cases b with
      | true =>
        simp only [Option.some.injEq] at h
        rw [← h]
        exact ⟨hp.trans (List.prefix_append _ _), Or.inl rfl⟩
      | false =>
        simp only [Option.some.injEq] at h
        rw [← h]
        exact ⟨hp, Or.inr rfl⟩

theorem main_extends_rig_trace (cfg : Config) (M : Modules W) (w0 : W)
    (answers : List Bool) (e1 : Exec W) (run : Run W)
    (h : createRig cfg M (logBanner cfg M w0) = Except.ok e1)
    (hm : main cfg M w0 answers = some run) :
    e1.trace ++ initializeRigCalls <+: run.exec.trace := by
  have ha : e1.trace ++ initializeRigCalls <+: (assemble cfg M e1).trace := by
    rw [assemble_trace, List.append_assoc (e1.trace ++ initializeRigCalls)]
    exact List.prefix_append _ _
  by_cases hd : M.makeDirectoryResult (assemble cfg M e1).world (out_dir cfg) < 0
  · rw [main_of_directory_failed cfg M w0 answers e1 h hd] at hm
    simp only [Option.some.injEq] at hm
    rw [← hm]
    simp only [Exec.call_trace, List.append_assoc]
    exact ha.trans (List.prefix_append _ _)
  · rw [main_of_directory_ok cfg M w0 answers e1 h (not_lt.mp hd)] at hm
    have h1 := (simulate_extends_trace cfg M answers _ run hm).1
    rw [Exec.call_trace, List.append_assoc] at h1
    exact (ha.trans (List.prefix_append _ _)).trans h1

theorem Exec.calls_world_inv {α : Type} (M : Modules W) (f : W → α)
    (hf : ∀ c w, f (M.exec c w) = f w) (cs : List Call) (e : Exec W) :
    f (e.calls M cs).world = f e.world := by
  induction cs generalizing e with
  | nil => rfl
  | cons c cs ih =>
    have h := ih (e.call M c)
    simp only [Exec.calls, List.foldl_cons] at h ⊢
    rw [h]
    exact hf c e.world

theorem assemble_world_inv {α : Type} (cfg : Config) (M : Modules W) (f : W → α)
    (hf : ∀ c w, f (M.exec c w) = f w) (e : Exec W) :
    f (assemble cfg M e).world = f e.world := by
  simp only [assemble]
  rw [Exec.calls_world_inv M f hf, Exec.calls_world_inv M f hf, Exec.calls_world_inv M f hf]

theorem refExec_directoryStatus (c : Call) (w : RefWorld) :
    (refExec c w).directoryStatus = w.directoryStatus := by
  cases c <;> first | rfl | (rename_i d; cases d <;> rfl)

theorem refExec_solveConverged (c : Call) (w : RefWorld) :
    (refExec c w).solveConverged = w.solveConverged := by
  cases c <;> first | rfl | (rename_i d; cases d <;> rfl)

theorem createRig_defaultConfig (M : Modules W) (e : Exec W) :
    createRig defaultConfig M e
      = Except.ok (e.calls M
          [Call.makeAssembly AssemblyClass.M113_TrackAssemblyBandANCF VehicleSide.LEFT,
           Call.newRig AssemblyClass.M113_TrackAssemblyBandANCF ⟨0, 1, 0⟩ ContactMethod.SMC]) :=
  rfl

theorem Exec.calls_world_inv_of {α : Type} (M : Modules W) (f : W → α) (P : Call → Bool)
    (hf : ∀ c w, P c = true → f (M.exec c w) = f w) (cs : List Call)
    (hcs : ∀ c ∈ cs, P c = true) (e : Exec W) :
    f (e.calls M cs).world = f e.world := by
  induction cs generalizing e with
  | nil => rfl
  | cons c cs ih =>
    have h := ih (fun x hx => hcs x (List.mem_cons_of_mem c hx)) (e.call M c)
    simp only [Exec.calls, List.foldl_cons] at h ⊢
    rw [h]
    exact hf c e.world (hcs c (List.mem_cons_self c cs))

theorem advance_throttle (d : DriverModel) (h : ℚ) (ht : d.throttleTarget = 1)
    (h0 : 0 ≤ d.throttle) (h1 : d.throttle ≤ 1) (hd : 0 ≤ d.throttleDelta) :
    (d.Advance h).throttle = min (d.throttle + d.throttleDelta) 1 := by
  simp only [DriverModel.Advance, approach, clamp, ht, h1, if_true]
  have h2 : 0 ≤ min (d.throttle + d.throttleDelta) 1 := le_min (by linarith) (by norm_num)
  rw [min_eq_right (min_le_right _ _), max_eq_right h2]

theorem iterate_advance_throttle (h : ℚ) (n : Nat) (d : DriverModel)
    (ht : d.throttleTarget = 1)
    (h0 : 0 ≤ d.throttle) (h1 : d.throttle ≤ 1) (hd : 0 ≤ d.throttleDelta) :
    ((fun x : DriverModel => x.Advance h)^[n] d).throttle
      = min (d.throttle + n * d.throttleDelta) 1 := by
  induction n generalizing d with
  | zero => simp [h1]
  | succ n ih =>
    rw [Function.iterate_succ_apply]
    have ha := advance_throttle d h ht h0 h1 hd
    have hδ : (d.Advance h).throttleDelta = d.throttleDelta := rfl
    rw [ih (d.Advance h) ht (by rw [ha]; exact le_min (by linarith) (by norm_num))
      (by rw [ha]; exact min_le_right _ _) hd, ha, hδ]
    push_cast
    have hn : (0 : ℚ) ≤ n * d.throttleDelta := mul_nonneg (Nat.cast_nonneg n) hd
    rcases le_total (d.throttle + d.throttleDelta) 1 with hle | hle
    · rw [min_eq_left hle]
      congr 1
      ring
    · rw [min_eq_right hle, min_eq_right (by linarith), min_eq_right (by nlinarith)]

theorem refExec_driver (c : Call) (w : RefWorld) (h : c.touchesDriver = false) :
    (refExec c w).driver = w.driver := by
  cases c <;> first | rfl | cases h

theorem updateModules_refModules_driver (cfg : Config) (s : LoopState RefWorld) :
    (updateModules cfg refModules s).exec.world.driver
      = s.exec.world.driver.Advance cfg.step_size := rfl

theorem renderScene_refModules_driver (cfg : Config) (s : LoopState RefWorld) :
    (renderScene cfg refModules s).exec.world.driver = s.exec.world.driver := by
  unfold renderScene
  dsimp only
  split <;> rfl

theorem step_refModules_driver (cfg : Config) (k : Int) (s : LoopState RefWorld) :
    (step cfg refModules k s).exec.world.driver
      = s.exec.world.driver.Advance cfg.step_size := by
  unfold step
  split
  · rw [updateModules_refModules_driver, renderScene_refModules_driver]
  · rw [updateModules_refModules_driver]

theorem steps_refModules_driver (cfg : Config) (k : Int) (n : Nat) (s : LoopState RefWorld) :
    (steps cfg refModules k n s).exec.world.driver
      = (fun x : DriverModel => x.Advance cfg.step_size)^[n] s.exec.world.driver := by
  induction n generalizing s with
  | zero => rfl
  | succ n ih =>
    simp only [steps]
    rw [ih, Function.iterate_succ_apply, step_refModules_driver]
    rfl

theorem assemble_refModules_driver (cfg : Config) (e : Exec RefWorld) (d : ℚ)
    (hd : steeringDelta cfg = some d) :
    (assemble cfg refModules e).world.driver.throttle = 0
    ∧ (assemble cfg refModules e).world.driver.throttleTarget = e.world.driver.throttleTarget
    ∧ (assemble cfg refModules e).world.driver.throttleDelta = d := by
  simp only [assemble, createDriverCalls, initializeRigCalls, createAppCalls, Exec.calls,
    List.foldl, Exec.call, hd]
  cases displacementDelta cfg <;> exact ⟨rfl, rfl, rfl⟩

theorem steeringDelta_rampConfig (s r T : ℚ) (hT : 0 < T) :
    steeringDelta (rampConfig s r T) = some (r / T) := by
  simp [steeringDelta, rampConfig, ne_of_gt hT]

theorem quiet_solverCalls_driver : ∀ c ∈ solverCalls, (!c.touchesDriver) = true := by
  simp [solverCalls, Call.touchesDriver]

/-- In the reference environment, with the throttle target latched at 1, the run
of `main` against `n` answers continue is still in the loop after `n` macro-steps
and the throttle is `n` times the steering delta, capped at 1. -/
theorem main_ramp_throttle (s r T : ℚ) (hs : 0 < s) (hr : 0 < r) (hT : 0 < T)
    (hlow : (2 : ℚ) ^ (-1075 : Int) < r / s)
    (hfit : ⌈r / s⌉ ≤ INT_MAX) (n : Nat) (iterations : Int) (conv : Bool) :
    ∃ run : Run RefWorld,
      main (rampConfig s r T) refModules (refWorld 1 iterations 0 conv) (List.replicate n true)
        = some run
      ∧ run.exit = none
      ∧ macroSteps run.exec.trace = n
      ∧ refModules.getThrottle run.exec.world = min (n * (r / T)) 1 := by
  obtain ⟨k, hk, h1, -, -⟩ := render_steps_bounds (rampConfig s r T) hs hr hlow ⌈r / s⌉
    (Int.le_ceil _) hfit
  have hpos : (0 : Int) < k := by omega
  have hc : createRig (rampConfig s r T) refModules
      (logBanner (rampConfig s r T) refModules (refWorld 1 iterations 0 conv))
      = Except.ok ((logBanner (rampConfig s r T) refModules
          (refWorld 1 iterations 0 conv)).calls refModules
          [Call.makeAssembly AssemblyClass.M113_TrackAssemblyBandANCF VehicleSide.LEFT,
           Call.newRig AssemblyClass.M113_TrackAssemblyBandANCF ⟨0, 1, 0⟩ ContactMethod.SMC]) :=
    rfl
  have hdir : 0 ≤ refModules.makeDirectoryResult
      (assemble (rampConfig s r T) refModules ((logBanner (rampConfig s r T) refModules
          (refWorld 1 iterations 0 conv)).calls refModules
          [Call.makeAssembly AssemblyClass.M113_TrackAssemblyBandANCF VehicleSide.LEFT,
           Call.newRig AssemblyClass.M113_TrackAssemblyBandANCF ⟨0, 1, 0⟩
             ContactMethod.SMC])).world (out_dir (rampConfig s r T)) := by
    show 0 ≤ ((assemble (rampConfig s r T) refModules _).world).directoryStatus
    rw [assemble_world_inv (rampConfig s r T) refModules (fun w => w.directoryStatus)
      refExec_directoryStatus,
      Exec.calls_world_inv refModules (fun w => w.directoryStatus) refExec_directoryStatus]
    exact le_of_eq (refExec_directoryStatus _ (refWorld 1 iterations 0 conv)).symm
  have hm := main_of_directory_ok (rampConfig s r T) refModules (refWorld 1 iterations 0 conv)
    (List.replicate n true) _ hc hdir
  rw [simulate_of_pos (rampConfig s r T) refModules _ _ _ hk hpos, leadingContinues_replicate,
    List.length_replicate, if_neg (lt_irrefl n)] at hm
  refine ⟨_, hm, rfl, ?_, ?_⟩
  · obtain ⟨run, m, hm2, hn, -, -, hx⟩ := main_summary (rampConfig s r T) refModules
      (refWorld 1 iterations 0 conv) (List.replicate n true) _ hk hpos
    rw [hm] at hm2
    simp only [Option.some.injEq] at hm2
    rw [← hm2] at hn hx
    rcases hx with ⟨h2, -⟩ | ⟨h2, -⟩
    · cases h2
    · rw [hn, h2, leadingContinues_replicate]
  · obtain ⟨ha0, ha1, ha2⟩ := assemble_refModules_driver (rampConfig s r T)
      ((logBanner (rampConfig s r T) refModules (refWorld 1 iterations 0 conv)).calls refModules
        [Call.makeAssembly AssemblyClass.M113_TrackAssemblyBandANCF VehicleSide.LEFT,
         Call.newRig AssemblyClass.M113_TrackAssemblyBandANCF ⟨0, 1, 0⟩ ContactMethod.SMC])
      (r / T) (steeringDelta_rampConfig s r T hT)
    have hentry : (loopEntry refModules ((assemble (rampConfig s r T) refModules
        ((logBanner (rampConfig s r T) refModules (refWorld 1 iterations 0 conv)).calls refModules
          [Call.makeAssembly AssemblyClass.M113_TrackAssemblyBandANCF VehicleSide.LEFT,
           Call.newRig AssemblyClass.M113_TrackAssemblyBandANCF ⟨0, 1, 0⟩
             ContactMethod.SMC])).call refModules
        (Call.makeDirectory (out_dir (rampConfig s r T))))).exec.world.driver
        = (assemble (rampConfig s r T) refModules
        ((logBanner (rampConfig s r T) refModules (refWorld 1 iterations 0 conv)).calls refModules
          [Call.makeAssembly AssemblyClass.M113_TrackAssemblyBandANCF VehicleSide.LEFT,
           Call.newRig AssemblyClass.M113_TrackAssemblyBandANCF ⟨0, 1, 0⟩
             ContactMethod.SMC])).world.driver := by
      show ((Exec.calls refModules solverCalls _).world).driver = _
      rw [Exec.calls_world_inv_of refModules (fun w => w.driver) (fun c => !c.touchesDriver)
        (fun c w hc => refExec_driver c w (by simpa using hc)) solverCalls
        quiet_solverCalls_driver]
      rfl
    have hd0 : (0 : ℚ) ≤ r / T := le_of_lt (div_pos hr hT)
    have hthr := iterate_advance_throttle (rampConfig s r T).step_size n _ (ha1.trans rfl)
      (le_of_eq ha0.symm) (by rw [ha0]; norm_num) (by rw [ha2]; exact hd0)
    rw [ha0, ha2, zero_add] at hthr
    show clamp 0 1 ((steps (rampConfig s r T) refModules _ n _).exec.world.driver.throttle) = _
    rw [steps_refModules_driver, hentry, hthr]
    unfold clamp
    have h2 : (0 : ℚ) ≤ min (n * (r / T)) 1 :=
      le_min (mul_nonneg (Nat.cast_nonneg n) hd0) (by norm_num)
    rw [min_eq_right (min_le_right _ _), max_eq_right h2]

theorem updateModules_trace_exists (cfg : Config) (M : Modules W) (s : LoopState W) :
    ∃ n : Int, (updateModules cfg M s).exec.trace
      = s.exec.trace ++ moduleCalls cfg (M.getChTime s.exec.world)
          (M.getDisplacement s.exec.world) (M.getThrottle s.exec.world) s.shoe_forces
        ++ [Call.coutStep (wrap32 (s.step_number + 1)) (M.getChTime s.exec.world) n] :=
  ⟨M.getNumIterations (s.exec.calls M (moduleCalls cfg (M.getChTime s.exec.world)
      (M.getDisplacement s.exec.world) (M.getThrottle s.exec.world) s.shoe_forces)).world,
    updateModules_trace cfg M s⟩

theorem refExec_of_isRenderCall (c : Call) (w : RefWorld) (h : c.isRenderCall = true) :
    refExec c w = w := by
  cases c <;> first | rfl | cases h

theorem render_steps_of_doubleDiv (cfg : Config) (q : ℚ)
    (h : doubleDiv cfg.render_step_size cfg.step_size = some q) :
    render_steps cfg = castInt (ceil q) := by
  unfold render_steps
  rw [h]

theorem simulationLoop_zero_undefined (cfg : Config) (M : Modules W) (rest : List Bool)
    (s : LoopState W) : simulationLoop cfg M 0 (true :: rest) s = none := by
  simp [simulationLoop, iteration, cmod]

/-- With a `render_steps` of 0, a run of `main` in the reference environment that
reaches the loop and gets an answer continue is undefined: the test of the render
branch divides by zero. -/
theorem main_undefined_of_render_steps_zero (s r T : ℚ) (rest : List Bool)
    (hk : render_steps (rampConfig s r T) = some 0) :
    main (rampConfig s r T) refModules (refWorld 1 0 0 true) (true :: rest) = none := by
  have hc : createRig (rampConfig s r T) refModules
      (logBanner (rampConfig s r T) refModules (refWorld 1 0 0 true))
      = Except.ok ((logBanner (rampConfig s r T) refModules
          (refWorld 1 0 0 true)).calls refModules
          [Call.makeAssembly AssemblyClass.M113_TrackAssemblyBandANCF VehicleSide.LEFT,
           Call.newRig AssemblyClass.M113_TrackAssemblyBandANCF ⟨0, 1, 0⟩ ContactMethod.SMC]) :=
    rfl
  rw [main_of_directory_ok _ refModules _ _ _ hc (by
    show 0 ≤ ((assemble _ refModules _).world).directoryStatus
    rw [assemble_world_inv _ refModules (fun w => w.directoryStatus)
      refExec_directoryStatus,
      Exec.calls_world_inv refModules (fun w => w.directoryStatus) refExec_directoryStatus]
    exact le_of_eq (refExec_directoryStatus _ (refWorld 1 0 0 true)).symm)]
  unfold simulate
  simp only [hk, simulationLoop_zero_undefined]

theorem updateModulesRaising_eq (cfg : Config) (M : Modules W) (s : LoopState W) :
    updateModulesRaising cfg M s
      = if M.converged (afterRigAdvance cfg M s).world = true
        then Except.ok (updateModules cfg M s)
        else Except.error (afterRigAdvance cfg M s) := by
  unfold updateModulesRaising advanceRig
  by_cases h : M.converged (afterRigAdvance cfg M s).world = true
  · rw [if_pos h]
    have h1 : M.converged ((s.exec.calls M
        [Call.driverSynchronize (M.getChTime s.exec.world),
         Call.rigSynchronize (M.getChTime s.exec.world) (M.getDisplacement s.exec.world)
           (M.getThrottle s.exec.world) s.shoe_forces,
         Call.appSynchronize "" 0 (M.getThrottle s.exec.world) 0,
         Call.driverAdvance cfg.step_size]).call M (Call.rigAdvance cfg.step_size)).world
        = true := h
    simp only [h1, if_true]
    rfl
  · rw [if_neg h]
    have h1 : ¬ M.converged ((s.exec.calls M
        [Call.driverSynchronize (M.getChTime s.exec.world),
         Call.rigSynchronize (M.getChTime s.exec.world) (M.getDisplacement s.exec.world)
           (M.getThrottle s.exec.world) s.shoe_forces,
         Call.appSynchronize "" 0 (M.getThrottle s.exec.world) 0,
         Call.driverAdvance cfg.step_size]).call M (Call.rigAdvance cfg.step_size)).world
        = true := h
    simp only [h1, if_false]
    rfl

theorem iterationRaising_of_pos (cfg : Config) (M : Modules W) (k : Int) (hk : 0 < k)
    (s : LoopState W) :
    iterationRaising cfg M k (enter M s)
      = some (if M.converged (solveState cfg M k s).world = true
          then Except.ok (step cfg M k (enter M s))
          else Except.error (solveState cfg M k s)) := by
  unfold iterationRaising
  rw [cmod_of_pos _ _ hk]
  simp only [updateModulesRaising_eq]
  rfl

theorem leadingContinues_cons_true (rest : List Bool) :
    leadingContinues (true :: rest) = leadingContinues rest + 1 := by
  simp [leadingContinues]

theorem simulationLoopRaising_cons_true (cfg : Config) (M : Modules W) (k : Int)
    (hk : 0 < k) (rest : List Bool) (s : LoopState W) :
    simulationLoopRaising cfg M k (true :: rest) s
      = if M.converged (solveState cfg M k s).world = true
        then simulationLoopRaising cfg M k rest (step cfg M k (enter M s))
        else some (Except.error (solveState cfg M k s)) := by
  have h := iterationRaising_of_pos cfg M k hk s
  unfold enter at h
  by_cases hc : M.converged (solveState cfg M k s).world = true
  · rw [if_pos hc] at h
    simp only [simulationLoopRaising, h, if_pos hc]
    rfl
  · rw [if_neg hc] at h
    simp only [simulationLoopRaising, h, if_neg hc]

/-- The loop with a raising `rig->Advance`: when the solves of the first `n`
macro-steps converge and the next one does not, while the host goes on answering
continue, the result is the failure raised at that `rig->Advance`. -/
theorem simulationLoopRaising_raises (cfg : Config) (M : Modules W) (k : Int) (hk : 0 < k)
    (n : Nat) (answers : List Bool) (s : LoopState W)
    (hn : n < leadingContinues answers)
    (hok : ∀ i, i < n → M.converged (solveState cfg M k (steps cfg M k i s)).world = true)
    (hbad : M.converged (solveState cfg M k (steps cfg M k n s)).world = false) :
    simulationLoopRaising cfg M k answers s
      = some (Except.error (solveState cfg M k (steps cfg M k n s))) := by
  induction n generalizing answers s with
  | zero =>
    cases answers with
    | nil => simp [leadingContinues] at hn
    | cons a rest =>
      cases a with
      | false => simp [leadingContinues] at hn
      | true =>
        have hb : ¬ M.converged (solveState cfg M k s).world = true := by
          have h0 : M.converged (solveState cfg M k s).world = false := hbad
          rw [h0]
          decide
        rw [simulationLoopRaising_cons_true cfg M k hk, if_neg hb]
        rfl
  | succ n ih =>
    cases answers with
    | nil => simp [leadingContinues] at hn
    | cons a rest =>
      cases a with
      | false => simp [leadingContinues] at hn
      | true =>
        have h0 : M.converged (solveState cfg M k s).world = true := hok 0 (Nat.succ_pos n)
        rw [leadingContinues_cons_true] at hn
        rw [simulationLoopRaising_cons_true cfg M k hk, if_pos h0]
        exact ih rest (step cfg M k (enter M s)) (by omega)
          (fun i hi => hok (i + 1) (by omega)) hbad

/-- The loop with a raising `rig->Advance` is the loop of `simulationLoop` when
the solves of all its macro-steps converge. -/
theorem simulationLoopRaising_of_converged (cfg : Config) (M : Modules W) (k : Int)
    (hk : 0 < k) (answers : List Bool) (s : LoopState W)
    (hok : ∀ i, i < leadingContinues answers →
      M.converged (solveState cfg M k (steps cfg M k i s)).world = true) :
    simulationLoopRaising cfg M k answers s
      = (simulationLoop cfg M k answers s).map Except.ok := by
  induction answers generalizing s with
  | nil => rfl
  | cons a rest ih =>
    cases a with
    | false => rfl
    | true =>
      rw [leadingContinues_cons_true] at hok
      have h0 : M.converged (solveState cfg M k s).world = true := hok 0 (Nat.succ_pos _)
      rw [simulationLoopRaising_cons_true cfg M k hk, if_pos h0,
        ih (step cfg M k (enter M s)) (fun i hi => hok (i + 1) (by omega))]
      have h1 := iteration_of_pos cfg M k hk (enter M s)
      unfold enter at h1
      simp only [simulationLoop, h1]
      rfl

theorem mainRaising_of_directory_ok (cfg : Config) (M : Modules W) (w0 : W)
    (answers : List Bool) (e1 : Exec W)
    (h : createRig cfg M (logBanner cfg M w0) = Except.ok e1)
    (hd : 0 ≤ M.makeDirectoryResult (assemble cfg M e1).world (out_dir cfg)) :
    mainRaising cfg M w0 answers
      = simulateRaising cfg M answers
          ((assemble cfg M e1).call M (Call.makeDirectory (out_dir cfg))) := by
  unfold mainRaising
  rw [h]
  simp only [initializeOutput, not_lt.mpr hd, if_false]

theorem moduleTrace_solveState (cfg : Config) (M : Modules W) (k : Int) (s : LoopState W) :
    moduleTrace (solveState cfg M k s).trace
      = moduleTrace s.exec.trace
        ++ [ModuleCall.driverSynchronize, ModuleCall.rigSynchronize,
            ModuleCall.appSynchronize, ModuleCall.driverAdvance, ModuleCall.rigAdvance] := by
  unfold solveState afterRigAdvance
  rw [Exec.calls_trace, moduleTrace_append]
  have h5 : ∀ (t p th : ℚ) (f : TerrainForces),
      moduleTrace [Call.driverSynchronize t, Call.rigSynchronize t p th f,
        Call.appSynchronize "" 0 th 0, Call.driverAdvance cfg.step_size,
        Call.rigAdvance cfg.step_size]
      = [ModuleCall.driverSynchronize, ModuleCall.rigSynchronize,
          ModuleCall.appSynchronize, ModuleCall.driverAdvance, ModuleCall.rigAdvance] :=
    fun _ _ _ _ => rfl
  have h1 : moduleTrace [Call.deviceRun] = [] := rfl
  rw [h5]
  congr 1
  split
  · rw [renderScene_trace, moduleTrace_append, moduleTrace_renderCalls, enter_trace,
      moduleTrace_append, h1]
    simp
  · rw [enter_trace, moduleTrace_append, h1]
    simp

theorem solveState_getLast (cfg : Config) (M : Modules W) (k : Int) (s : LoopState W) :
    (solveState cfg M k s).trace.getLast? = some (Call.rigAdvance cfg.step_size) := by
  unfold solveState afterRigAdvance
  rw [Exec.calls_trace]
  simp

theorem solveState_world_inv {α : Type} (cfg : Config) (M : Modules W) (k : Int)
    (f : W → α) (hf : ∀ c w, f (M.exec c w) = f w) (s : LoopState W) :
    f (solveState cfg M k s).world = f s.exec.world := by
  unfold solveState afterRigAdvance
  rw [Exec.calls_world_inv M f hf]
  split
  · unfold renderScene
    dsimp only
    split
    · show f (M.exec _ _) = _
      rw [hf, Exec.calls_world_inv M f hf]
      exact hf _ _
    · rw [Exec.calls_world_inv M f hf]
      exact hf _ _
  · exact hf _ _

end Lemmas

/-! ## The claims -/

section Claims

variable {W : Type}

/-- C2, as amended: when the render interval equals the positive simulation step,
`render_steps` is 1 and after `n` iterations, for every `n`, exactly `n` frames
have been drawn in `n` macro-steps (one per macro-step) and the two counters are
equal; they are equal to `n` as long as `n` is a value of `int`. -/
theorem render_once_per_macro_step (cfg : Config)
    (heq : cfg.render_step_size = cfg.step_size) (hs : 0 < cfg.step_size)
    (M : Modules W) (e : Exec W) (n : Nat) :
    render_steps cfg = some 1
    ∧ ∃ s : LoopState W,
        simulationLoop cfg M 1 (List.replicate n true) (initialLoopState e) = some (s, false)
      ∧ macroSteps s.exec.trace = macroSteps e.trace + n
      ∧ framesDrawn s.exec.trace = framesDrawn e.trace + n
      ∧ s.render_frame = s.step_number
      ∧ ((n : Int) ≤ INT_MAX → s.render_frame = n ∧ s.step_number = n) := by
  have hk := render_steps_of_eq cfg heq hs
  refine ⟨hk, steps cfg M 1 n (initialLoopState e), ?_, ?_, ?_, ?_, ?_⟩
  · rw [simulationLoop_of_pos cfg M 1 (by decide), leadingContinues_replicate,
      List.length_replicate, if_neg (lt_irrefl n)]
  · rw [steps_macroSteps]
    rfl
  · rw [steps_framesDrawn_one]
    rfl
  · rw [steps_render_frame_one cfg M n _ (initial_render_frame_range e),
      steps_step_number cfg M 1 n _ (initial_step_number_range e)]
    rfl
  · intro hn
    rw [steps_render_frame_one cfg M n _ (initial_render_frame_range e),
      steps_step_number cfg M 1 n _ (initial_step_number_range e)]
    have h0 : (initialLoopState e).render_frame = 0 := rfl
    have h1 : (initialLoopState e).step_number = 0 := rfl
    rw [h0, h1, zero_add]
    have h2 := wrap32_of_range (n : Int) (by unfold INT_MIN; omega) hn
    exact ⟨h2, h2⟩

/-- Witness of C2 as amended: the source's settings in the reference environment,
three iterations. -/
theorem render_once_per_macro_step_witness :
    defaultConfig.render_step_size = defaultConfig.step_size ∧ 0 < defaultConfig.step_size
    ∧ render_steps defaultConfig = some 1
    ∧ ∃ s : LoopState RefWorld,
        simulationLoop defaultConfig refModules 1 (List.replicate 3 true)
          (initialLoopState ⟨refWorld 1 0 0 true, []⟩) = some (s, false)
      ∧ macroSteps s.exec.trace = macroSteps ([] : List Call) + 3
      ∧ framesDrawn s.exec.trace = framesDrawn ([] : List Call) + 3
      ∧ s.render_frame = s.step_number
      ∧ (((3 : Nat) : Int) ≤ INT_MAX → s.render_frame = (3 : Nat) ∧ s.step_number = (3 : Nat)) :=
  ⟨rfl, by norm_num [defaultConfig],
    render_once_per_macro_step defaultConfig rfl (by norm_num [defaultConfig]) refModules
      ⟨refWorld 1 0 0 true, []⟩ 3⟩

/-- C2 fails as stated: with the source's settings, after 2147483648 iterations
the counters `step_number` and `render_frame` hold -2147483648, not the number of
iterations. -/
theorem counters_differ_from_iteration_count :
    defaultConfig.render_step_size = defaultConfig.step_size ∧ 0 < defaultConfig.step_size
    ∧ ∃ s : LoopState RefWorld,
        simulationLoop defaultConfig refModules 1 (List.replicate 2147483648 true)
          (initialLoopState ⟨refWorld 1 0 0 true, []⟩) = some (s, false)
      ∧ s.step_number = -2147483648 ∧ s.render_frame = -2147483648
      ∧ s.step_number ≠ ((2147483648 : Nat) : Int)
      ∧ s.render_frame ≠ ((2147483648 : Nat) : Int) := by
  refine ⟨rfl, by norm_num [defaultConfig],
    steps defaultConfig refModules 1 2147483648 (initialLoopState ⟨refWorld 1 0 0 true, []⟩),
    ?_, ?_, ?_, ?_, ?_⟩
  · rw [simulationLoop_of_pos defaultConfig refModules 1 (by decide),
      leadingContinues_replicate, List.length_replicate, if_neg (lt_irrefl _)]
  · rw [steps_step_number defaultConfig refModules 1 _ _ (initial_step_number_range _)]
    decide
  · rw [steps_render_frame_one defaultConfig refModules _ _ (initial_render_frame_range _)]
    decide
  · rw [steps_step_number defaultConfig refModules 1 _ _ (initial_step_number_range _)]
    decide
  · rw [steps_render_frame_one defaultConfig refModules _ _ (initial_render_frame_range _)]
    decide

/-- C10 fails as stated: with the binary64 values `step_size = 2 ^ 600` and
`render_step_size = 2 ^ (-600)`, both positive, whose quotient rounded up is 1
and fits an `int`, the double division underflows to 0, `render_steps` is 0, not
at least 1, and the first test `step_number % render_steps` divides by zero: the
run of `main` against an answer continue is undefined. -/
theorem render_steps_zero_on_underflow :
    (0 : ℚ) < 2 ^ (600 : Int) ∧ (0 : ℚ) < 2 ^ (-600 : Int)
    ∧ roundDouble ((2 : ℚ) ^ (600 : Int)) = some (2 ^ (600 : Int))
    ∧ roundDouble ((2 : ℚ) ^ (-600 : Int)) = some (2 ^ (-600 : Int))
    ∧ ⌈(2 : ℚ) ^ (-600 : Int) / 2 ^ (600 : Int)⌉ ≤ INT_MAX
    ∧ doubleDiv ((2 : ℚ) ^ (-600 : Int)) (2 ^ (600 : Int)) = some 0
    ∧ render_steps (rampConfig (2 ^ (600 : Int)) (2 ^ (-600 : Int)) 1) = some 0
    ∧ cmod 0 0 = none
    ∧ main (rampConfig (2 ^ (600 : Int)) (2 ^ (-600 : Int)) 1) refModules
        (refWorld 1 0 0 true) [true] = none := by
  have hq : (2 : ℚ) ^ (-600 : Int) / 2 ^ (600 : Int) = 2 ^ (-1200 : Int) := by
    rw [← zpow_sub₀ (by norm_num)]
    norm_num
  have hle : (2 : ℚ) ^ (-1200 : Int) ≤ 2 ^ (-1075 : Int) :=
    zpow_le_zpow_right₀ (by norm_num) (by norm_num)
  have hd : doubleDiv ((2 : ℚ) ^ (-600 : Int)) (2 ^ (600 : Int)) = some 0 := by
    unfold doubleDiv roundDouble
    rw [if_neg (ne_of_gt (two_zpow_pos 600)), hq,
      if_neg (not_lt.mpr (le_of_lt (two_zpow_pos (-1200)))),
      roundMagnitude_underflow _ (two_zpow_pos (-1200)) hle]
  have hk : render_steps (rampConfig (2 ^ (600 : Int)) (2 ^ (-600 : Int)) 1) = some 0 := by
    rw [render_steps_of_doubleDiv _ 0 hd]
    simp [ceil, castInt, INT_MIN, INT_MAX]
  refine ⟨two_zpow_pos 600, two_zpow_pos (-600), roundDouble_two_zpow 600 (by norm_num)
    (by norm_num), roundDouble_two_zpow (-600) (by norm_num) (by norm_num), ?_, hd, hk,
    by simp [cmod], main_undefined_of_render_steps_zero _ _ _ [] hk⟩
  rw [hq]
  unfold INT_MAX
  exact Int.ceil_le.mpr (le_trans hle (le_trans (le_of_lt
    (lt_trans two_zpow_neg_lt_one_quarter (by norm_num))) (by norm_num : (1 : ℚ) ≤ _)))

/-- C10, as amended: for positive `step_size` and `render_step_size` whose
quotient is above `2 ^ (-1075)` (so that the double division does not underflow
to zero) and, rounded up, is a value of `int`, `render_steps` is at least 1 and
at most the rounded-up quotient, it is 1 when the render interval is not longer
than the step, the remainder `step_number % render_steps` is always defined, and
an iteration draws a frame exactly when its `step_number` is a multiple of
`render_steps`; the first iteration, with `step_number` 0, draws one. -/
theorem render_steps_at_least_one (cfg : Config) (hs : 0 < cfg.step_size)
    (hr : 0 < cfg.render_step_size)
    (hlow : (2 : ℚ) ^ (-1075 : Int) < cfg.render_step_size / cfg.step_size)
    (hfit : ⌈cfg.render_step_size / cfg.step_size⌉ ≤ INT_MAX) :
    ∃ k : Int, render_steps cfg = some k ∧ 1 ≤ k
      ∧ k ≤ ⌈cfg.render_step_size / cfg.step_size⌉
      ∧ (cfg.render_step_size ≤ cfg.step_size → k = 1)
      ∧ (∀ a : Int, cmod a k = some (Int.tmod a k))
      ∧ (∀ (M : Modules W) (s : LoopState W), ∃ s1 : LoopState W,
          iteration cfg M k s = some s1
          ∧ framesDrawn s1.exec.trace
              = framesDrawn s.exec.trace + (if k ∣ s.step_number then 1 else 0))
      ∧ (∀ (M : Modules W) (e : Exec W), ∃ s1 : LoopState W,
          iteration cfg M k (initialLoopState e) = some s1
          ∧ framesDrawn s1.exec.trace = framesDrawn e.trace + 1) := by
  obtain ⟨k, hk, h1, h2, -⟩ := render_steps_bounds cfg hs hr hlow
    ⌈cfg.render_step_size / cfg.step_size⌉ (Int.le_ceil _) hfit
  have hpos : 0 < k := by omega
  refine ⟨k, hk, h1, h2, ?_, fun a => cmod_of_pos a _ hpos, ?_, ?_⟩
  · intro hle
    have hq : cfg.render_step_size / cfg.step_size ≤ ((1 : Int) : ℚ) := by
      rw [Int.cast_one]
      exact (div_le_one hs).mpr hle
    obtain ⟨k1, hk1, h3, h4, -⟩ := render_steps_bounds cfg hs hr hlow 1 hq (by decide)
    rw [hk] at hk1
    have : k = k1 := Option.some.inj hk1
    omega
  · intro M s
    refine ⟨_, iteration_of_pos cfg M _ hpos s, ?_⟩
    rw [framesDrawn_step]
    simp only [Int.dvd_iff_tmod_eq_zero]
  · intro M e
    refine ⟨_, iteration_of_pos cfg M _ hpos _, ?_⟩
    rw [framesDrawn_step]
    have h0 : (initialLoopState e).step_number = 0 := rfl
    rw [h0, Int.zero_tmod, if_pos rfl]
    rfl

/-- Witness of C10 as amended: the source's settings. -/
theorem render_steps_at_least_one_witness :
    0 < defaultConfig.step_size ∧ 0 < defaultConfig.render_step_size
    ∧ (2 : ℚ) ^ (-1075 : Int) < defaultConfig.render_step_size / defaultConfig.step_size
    ∧ ⌈defaultConfig.render_step_size / defaultConfig.step_size⌉ ≤ INT_MAX
    ∧ ∃ k : Int, render_steps defaultConfig = some k ∧ 1 ≤ k
      ∧ k ≤ ⌈defaultConfig.render_step_size / defaultConfig.step_size⌉
      ∧ (defaultConfig.render_step_size ≤ defaultConfig.step_size → k = 1)
      ∧ (∀ a : Int, cmod a k = some (Int.tmod a k))
      ∧ (∀ (M : Modules RefWorld) (s : LoopState RefWorld), ∃ s1 : LoopState RefWorld,
          iteration defaultConfig M k s = some s1
          ∧ framesDrawn s1.exec.trace
              = framesDrawn s.exec.trace + (if k ∣ s.step_number then 1 else 0))
      ∧ (∀ (M : Modules RefWorld) (e : Exec RefWorld), ∃ s1 : LoopState RefWorld,
          iteration defaultConfig M k (initialLoopState e) = some s1
          ∧ framesDrawn s1.exec.trace = framesDrawn e.trace + 1) :=
  have hq : defaultConfig.render_step_size / defaultConfig.step_size = 1 := by
    norm_num [defaultConfig]
  have hlow : (2 : ℚ) ^ (-1075 : Int)
      < defaultConfig.render_step_size / defaultConfig.step_size := by
    rw [hq]
    exact lt_trans two_zpow_neg_lt_one_quarter (by norm_num)
  ⟨by norm_num [defaultConfig], by norm_num [defaultConfig], hlow,
    by rw [hq]; norm_num [INT_MAX],
    render_steps_at_least_one defaultConfig (by norm_num [defaultConfig])
      (by norm_num [defaultConfig]) hlow (by rw [hq]; norm_num [INT_MAX])⟩

/-- C5: when the rig is not built from JSON, for every track shoe type other than
`BAND_BUSHING` and `BAND_ANCF`, `main` prints the error and returns 1; its trace is
the banner followed by the error line, so no rig object is created or initialized
and no macro-step is performed.  For `BAND_BUSHING` and `BAND_ANCF` the rig is
created with the bushing, respectively ANCF, track assembly, and every run of
`main` begins with these calls followed by the initialization of the rig. -/
theorem unsupported_track_type_returns_one (cfg : Config) (M : Modules W) (w0 : W)
    (answers : List Bool) (hj : cfg.use_JSON = false) :
    (cfg.type ≠ TrackShoeType.BAND_BUSHING → cfg.type ≠ TrackShoeType.BAND_ANCF →
      ∃ run : Run W, main cfg M w0 answers = some run ∧ run.exit = some 1
        ∧ run.exec.trace
            = [Call.log ("Copyright (c) 2017 projectchrono.org\nChrono version: "
                ++ cfg.chronoVersion ++ "\n\n"),
               Call.coutLine "Track type not supported"]
        ∧ (∀ c ∈ run.exec.trace, c.isRigConstruction = false)
        ∧ macroSteps run.exec.trace = 0)
    ∧ (cfg.type = TrackShoeType.BAND_BUSHING →
        createRig cfg M (logBanner cfg M w0)
          = Except.ok ((logBanner cfg M w0).calls M
              [Call.makeAssembly AssemblyClass.M113_TrackAssemblyBandBushing VehicleSide.LEFT,
               Call.newRig AssemblyClass.M113_TrackAssemblyBandBushing ⟨0, 1, 0⟩
                 ContactMethod.SMC])
        ∧ ∀ run : Run W, main cfg M w0 answers = some run →
            (logBanner cfg M w0).trace
              ++ [Call.makeAssembly AssemblyClass.M113_TrackAssemblyBandBushing VehicleSide.LEFT,
                  Call.newRig AssemblyClass.M113_TrackAssemblyBandBushing ⟨0, 1, 0⟩
                    ContactMethod.SMC]
              ++ initializeRigCalls <+: run.exec.trace)
    ∧ (cfg.type = TrackShoeType.BAND_ANCF →
        createRig cfg M (logBanner cfg M w0)
          = Except.ok ((logBanner cfg M w0).calls M
              [Call.makeAssembly AssemblyClass.M113_TrackAssemblyBandANCF VehicleSide.LEFT,
               Call.newRig AssemblyClass.M113_TrackAssemblyBandANCF ⟨0, 1, 0⟩
                 ContactMethod.SMC])
        ∧ ∀ run : Run W, main cfg M w0 answers = some run →
            (logBanner cfg M w0).trace
              ++ [Call.makeAssembly AssemblyClass.M113_TrackAssemblyBandANCF VehicleSide.LEFT,
                  Call.newRig AssemblyClass.M113_TrackAssemblyBandANCF ⟨0, 1, 0⟩
                    ContactMethod.SMC]
              ++ initializeRigCalls <+: run.exec.trace) := by
  refine ⟨?_, ?_, ?_⟩
  · intro h1 h2
    have hc : createRig cfg M (logBanner cfg M w0)
        = Except.error ((logBanner cfg M w0).call M (Call.coutLine "Track type not supported")) := by
      unfold createRig
      rw [hj]
      cases ht : cfg.type with
      | BAND_BUSHING => exact absurd ht h1
      | BAND_ANCF => exact absurd ht h2
      | other tag => rfl
    refine ⟨_, main_of_unsupported cfg M w0 answers _ hc, rfl, rfl, ?_, ?_⟩
    · intro c hc
      simp only [Exec.call_trace, logBanner, List.nil_append, List.cons_append,
        List.mem_cons, List.mem_nil_iff, or_false] at hc
      rcases hc with rfl | rfl <;> rfl
    · rfl
  · intro ht
    have hc : createRig cfg M (logBanner cfg M w0)
        = Except.ok ((logBanner cfg M w0).calls M
            [Call.makeAssembly AssemblyClass.M113_TrackAssemblyBandBushing VehicleSide.LEFT,
             Call.newRig AssemblyClass.M113_TrackAssemblyBandBushing ⟨0, 1, 0⟩
               ContactMethod.SMC]) := by
      unfold createRig
      rw [hj, ht]
      rfl
    refine ⟨hc, fun run hm => ?_⟩
    have h := main_extends_rig_trace cfg M w0 answers _ run hc hm
    rwa [Exec.calls_trace] at h
  · intro ht
    have hc : createRig cfg M (logBanner cfg M w0)
        = Except.ok ((logBanner cfg M w0).calls M
            [Call.makeAssembly AssemblyClass.M113_TrackAssemblyBandANCF VehicleSide.LEFT,
             Call.newRig AssemblyClass.M113_TrackAssemblyBandANCF ⟨0, 1, 0⟩
               ContactMethod.SMC]) := by
      unfold createRig
      rw [hj, ht]
      rfl
    refine ⟨hc, fun run hm => ?_⟩
    have h := main_extends_rig_trace cfg M w0 answers _ run hc hm
    rwa [Exec.calls_trace] at h

/-- Witness of C5: the source's settings with the track shoe type replaced by
another enumerator, in the reference environment; `main` returns 1. -/
theorem unsupported_track_type_returns_one_witness :
    ({ defaultConfig with type := TrackShoeType.other 0 } : Config).use_JSON = false
    ∧ ∃ run : Run RefWorld,
        main { defaultConfig with type := TrackShoeType.other 0 } refModules
          (refWorld 1 0 0 true) [true, false] = some run
        ∧ run.exit = some 1
        ∧ run.exec.trace
            = [Call.log ("Copyright (c) 2017 projectchrono.org\nChrono version: "
                ++ ({ defaultConfig with type := TrackShoeType.other 0 } : Config).chronoVersion
                ++ "\n\n"),
               Call.coutLine "Track type not supported"]
        ∧ (∀ c ∈ run.exec.trace, c.isRigConstruction = false)
        ∧ macroSteps run.exec.trace = 0 :=
  ⟨rfl,
    (unsupported_track_type_returns_one { defaultConfig with type := TrackShoeType.other 0 }
      refModules (refWorld 1 0 0 true) [true, false] rfl).1 (by decide) (by decide)⟩

/-- C6: for every configuration in which `main` reaches the section "Initialize
output" (the rig was created), if `MakeDirectory` returns a negative value then
`main` prints the error, returns 1 and performs no macro-step; otherwise it goes
on with the solver settings and the loop, and can only return 0. -/
theorem directory_failure_returns_one (cfg : Config) (M : Modules W) (w0 : W)
    (answers : List Bool) (e1 : Exec W)
    (hrig : createRig cfg M (logBanner cfg M w0) = Except.ok e1) :
    (M.makeDirectoryResult (assemble cfg M e1).world (out_dir cfg) < 0 →
      ∃ run : Run W, main cfg M w0 answers = some run ∧ run.exit = some 1
        ∧ run.exec.trace
            = (assemble cfg M e1).trace
              ++ [Call.makeDirectory (out_dir cfg),
                  Call.coutLine ("Error creating directory " ++ out_dir cfg)]
        ∧ macroSteps run.exec.trace = 0)
    ∧ (0 ≤ M.makeDirectoryResult (assemble cfg M e1).world (out_dir cfg) →
        main cfg M w0 answers
          = simulate cfg M answers ((assemble cfg M e1).call M (Call.makeDirectory (out_dir cfg)))
        ∧ ∀ run : Run W, main cfg M w0 answers = some run →
            ((assemble cfg M e1).trace ++ [Call.makeDirectory (out_dir cfg)] ++ solverCalls
                <+: run.exec.trace)
            ∧ (run.exit = some 0 ∨ run.exit = none)) := by
  refine ⟨fun hd => ?_, fun hd => ?_⟩
  · refine ⟨_, main_of_directory_failed cfg M w0 answers e1 hrig hd, rfl, ?_, ?_⟩
    · simp [Exec.call_trace]
    · have hq : Quiet (logBanner cfg M w0).trace := by
        simp [logBanner, Exec.call_trace, Quiet, Call.moduleCall, Call.isDrawAll]
      have h1 := createRig_quiet cfg M _ hq
      rw [hrig] at h1
      have h2 := assemble_quiet cfg M e1 h1
      have h3 : Quiet [Call.makeDirectory (out_dir cfg),
          Call.coutLine ("Error creating directory " ++ out_dir cfg)] := by
        simp [Quiet, Call.moduleCall, Call.isDrawAll]
      simp only [Exec.call_trace, List.append_assoc, List.singleton_append]
      exact (h2.append h3).macroSteps
  · have hm := main_of_directory_ok cfg M w0 answers e1 hrig hd
    refine ⟨hm, fun run hr => ?_⟩
    rw [hm] at hr
    have h := simulate_extends_trace cfg M answers _ run hr
    rwa [Exec.call_trace] at h

/-- Witness of C6: the source's settings in a reference world in which the
directory cannot be created; `main` returns 1 without a macro-step. -/
theorem directory_failure_returns_one_witness :
    ∃ run : Run RefWorld,
      main defaultConfig refModules (refWorld 1 0 (-1) true) [true, false] = some run
      ∧ run.exit = some 1 ∧ macroSteps run.exec.trace = 0 := by
  have h := (directory_failure_returns_one defaultConfig refModules (refWorld 1 0 (-1) true)
    [true, false] _ (createRig_defaultConfig refModules _)).1 (by
      show ((assemble defaultConfig refModules _).world).directoryStatus < 0
      rw [assemble_world_inv defaultConfig refModules (fun w => w.directoryStatus)
        refExec_directoryStatus,
        Exec.calls_world_inv refModules (fun w => w.directoryStatus) refExec_directoryStatus]
      decide)
  obtain ⟨run, h1, h2, -, h4⟩ := h
  exact ⟨run, h1, h2, h4⟩

/-- C3: with the rig's `Advance` raising IntegratorDivergence on a solve without
convergence, as the spec prescribes, in every run of `main` that reaches the loop
(for a positive `render_steps`): if the solves of the first `n` macro-steps
converge and the solve of the next macro-step does not, while the host goes on
answering continue, the failure leaves `main` (no handler, no return code), the
trace ends with that `rig->Advance`, and it holds `n` complete macro-steps
followed by the calls of the failed one up to `rig->Advance`: no later call
synchronizes or advances a module.  When all solves converge, the run is the one
of `main`. -/
theorem unconverged_solve_is_fatal (cfg : Config) (M : Modules W) (w0 : W)
    (answers : List Bool) (k : Int) (hk : render_steps cfg = some k) (hpos : 0 < k)
    (e1 : Exec W) (hrig : createRig cfg M (logBanner cfg M w0) = Except.ok e1)
    (hdir : 0 ≤ M.makeDirectoryResult (assemble cfg M e1).world (out_dir cfg)) :
    (∀ n : Nat, n < leadingContinues answers →
      (∀ i, i < n →
        M.converged (solveState cfg M k (steps cfg M k i (loopEntry M
          ((assemble cfg M e1).call M (Call.makeDirectory (out_dir cfg)))))).world = true) →
      M.converged (solveState cfg M k (steps cfg M k n (loopEntry M
          ((assemble cfg M e1).call M (Call.makeDirectory (out_dir cfg)))))).world = false →
      mainRaising cfg M w0 answers
          = some (Outcome.raised (solveState cfg M k (steps cfg M k n (loopEntry M
              ((assemble cfg M e1).call M (Call.makeDirectory (out_dir cfg)))))))
      ∧ moduleTrace (solveState cfg M k (steps cfg M k n (loopEntry M
              ((assemble cfg M e1).call M (Call.makeDirectory (out_dir cfg)))))).trace
          = (List.replicate n macroStepOrder).flatten
            ++ [ModuleCall.driverSynchronize, ModuleCall.rigSynchronize,
                ModuleCall.appSynchronize, ModuleCall.driverAdvance, ModuleCall.rigAdvance]
      ∧ (solveState cfg M k (steps cfg M k n (loopEntry M
              ((assemble cfg M e1).call M (Call.makeDirectory (out_dir cfg)))))).trace.getLast?
          = some (Call.rigAdvance cfg.step_size))
    ∧ ((∀ i, i < leadingContinues answers →
        M.converged (solveState cfg M k (steps cfg M k i (loopEntry M
          ((assemble cfg M e1).call M (Call.makeDirectory (out_dir cfg)))))).world = true) →
      mainRaising cfg M w0 answers = (main cfg M w0 answers).map Outcome.completed) := by
  have hentry : ∀ e : Exec W, initialLoopState (e.calls M solverCalls) = loopEntry M e :=
    fun _ => rfl
  refine ⟨fun n hn hok hbad => ⟨?_, ?_, solveState_getLast cfg M k _⟩, fun hok => ?_⟩
  · rw [mainRaising_of_directory_ok cfg M w0 answers e1 hrig hdir]
    unfold simulateRaising
    simp only [hk, hentry]
    rw [simulationLoopRaising_raises cfg M k hpos n answers _ hn hok hbad]
  · have hq : Quiet (logBanner cfg M w0).trace := by
      simp [logBanner, Exec.call_trace, Quiet, Call.moduleCall, Call.isDrawAll]
    have h1 := createRig_quiet cfg M _ hq
    rw [hrig] at h1
    have h2 : Quiet ((assemble cfg M e1).call M (Call.makeDirectory (out_dir cfg))).trace := by
      rw [Exec.call_trace]
      refine Quiet.append (assemble_quiet cfg M e1 h1) ?_
      simp [Quiet, Call.moduleCall, Call.isDrawAll]
    rw [moduleTrace_solveState, steps_moduleTrace, (loopEntry_quiet M _ h2).moduleTrace,
      List.nil_append]
  · rw [mainRaising_of_directory_ok cfg M w0 answers e1 hrig hdir,
      main_of_directory_ok cfg M w0 answers e1 hrig hdir]
    unfold simulateRaising simulate
    simp only [hk, hentry]
    rw [simulationLoopRaising_of_converged cfg M k hpos answers _ hok,
      simulationLoop_of_pos cfg M k hpos]
    by_cases hlt : leadingContinues answers < answers.length
    · simp [hlt]
    · simp [hlt]

/-- Witness of C3: the source's settings in the reference environment with an
integrator none of whose solves converges, the host answering continue, continue,
stop: the failure of the first solve leaves `main`, after the five module calls of
the first macro-step up to `rig->Advance`. -/
theorem unconverged_solve_is_fatal_witness :
    render_steps defaultConfig = some 1 ∧ (0 : Int) < 1
    ∧ ∃ e : Exec RefWorld,
        mainRaising defaultConfig refModules (refWorld 1 200 0 false) [true, true, false]
          = some (Outcome.raised e)
        ∧ refModules.converged e.world = false
        ∧ moduleTrace e.trace
            = [ModuleCall.driverSynchronize, ModuleCall.rigSynchronize,
               ModuleCall.appSynchronize, ModuleCall.driverAdvance, ModuleCall.rigAdvance]
        ∧ e.trace.getLast? = some (Call.rigAdvance defaultConfig.step_size) := by
  have hconv : ∀ e : Exec RefWorld, e.world.solveConverged = false →
      refModules.converged (solveState defaultConfig refModules 1
        (steps defaultConfig refModules 1 0 (loopEntry refModules
          ((assemble defaultConfig refModules e).call refModules
            (Call.makeDirectory (out_dir defaultConfig)))))).world = false := by
    intro e he
    show ((solveState defaultConfig refModules 1 _).world).solveConverged = false
    rw [solveState_world_inv defaultConfig refModules 1 (fun w => w.solveConverged)
      refExec_solveConverged]
    show ((Exec.calls refModules solverCalls _).world).solveConverged = false
    rw [Exec.calls_world_inv refModules (fun w => w.solveConverged) refExec_solveConverged]
    show (refExec _ _).solveConverged = false
    rw [refExec_solveConverged,
      assemble_world_inv defaultConfig refModules (fun w => w.solveConverged)
        refExec_solveConverged]
    exact he
  have hstart : ((logBanner defaultConfig refModules (refWorld 1 200 0 false)).calls refModules
      [Call.makeAssembly AssemblyClass.M113_TrackAssemblyBandANCF VehicleSide.LEFT,
       Call.newRig AssemblyClass.M113_TrackAssemblyBandANCF ⟨0, 1, 0⟩
         ContactMethod.SMC]).world.solveConverged = false := by
    rw [Exec.calls_world_inv refModules (fun w => w.solveConverged) refExec_solveConverged]
    exact refExec_solveConverged _ (refWorld 1 200 0 false)
  have hdir : 0 ≤ refModules.makeDirectoryResult
      (assemble defaultConfig refModules
        ((logBanner defaultConfig refModules (refWorld 1 200 0 false)).calls refModules
          [Call.makeAssembly AssemblyClass.M113_TrackAssemblyBandANCF VehicleSide.LEFT,
           Call.newRig AssemblyClass.M113_TrackAssemblyBandANCF ⟨0, 1, 0⟩
             ContactMethod.SMC])).world (out_dir defaultConfig) := by
    show 0 ≤ ((assemble defaultConfig refModules _).world).directoryStatus
    rw [assemble_world_inv defaultConfig refModules (fun w => w.directoryStatus)
      refExec_directoryStatus,
      Exec.calls_world_inv refModules (fun w => w.directoryStatus) refExec_directoryStatus]
    exact le_of_eq (refExec_directoryStatus _ (refWorld 1 200 0 false)).symm
  have h := (unconverged_solve_is_fatal defaultConfig refModules (refWorld 1 200 0 false)
    [true, true, false] 1 render_steps_defaultConfig (by decide) _
    (createRig_defaultConfig refModules _) hdir).1 0 (by decide)
    (fun i hi => absurd hi (Nat.not_lt_zero i)) (hconv _ hstart)
  exact ⟨render_steps_defaultConfig, by decide, _, h.1, hconv _ hstart, h.2.1, h.2.2⟩

/-- C7 fails as stated: with `step_size = 1`, `render_step_size = 1/4` and
`steering_time = 2` (all positive), the steering delta is 1/8 and after
`steering_time / step_size = 2` macro-steps the throttle of the spec's driver is
1/4, which is not within one delta of 1. -/
theorem throttle_ramp_misses_steering_time :
    ⌊(2 : ℚ) / 1⌋₊ = 2
    ∧ steeringDelta (rampConfig 1 (1 / 4) 2) = some (1 / 8)
    ∧ ∃ run : Run RefWorld,
        main (rampConfig 1 (1 / 4) 2) refModules (refWorld 1 0 0 true) (List.replicate 2 true)
          = some run
        ∧ macroSteps run.exec.trace = 2
        ∧ refModules.getThrottle run.exec.world = 1 / 4
        ∧ ¬ (1 - 1 / 8 ≤ refModules.getThrottle run.exec.world) := by
  refine ⟨by norm_num, ?_, ?_⟩
  · rw [steeringDelta_rampConfig 1 (1 / 4) 2 (by norm_num)]
    norm_num
  · obtain ⟨run, hm, -, hn, ht⟩ := main_ramp_throttle 1 (1 / 4) 2 (by norm_num) (by norm_num)
      (by norm_num) (by rw [div_one]; exact two_zpow_neg_lt_one_quarter)
      (by unfold INT_MAX; exact Int.ceil_le.mpr (by norm_num)) 2 0 true
    have h4 : refModules.getThrottle run.exec.world = 1 / 4 := by
      rw [ht]
      norm_num
    refine ⟨run, hm, hn, h4, ?_⟩
    rw [h4]
    norm_num

/-- C7, as amended: with the spec's driver, its throttle target latched at 1, for
positive `step_size`, `render_step_size` and `steering_time` with
`step_size ≤ render_step_size` (and a `render_steps` that is a value of `int`),
after the `⌊steering_time / step_size⌋` macro-steps of `steering_time` of simulated
time the throttle is within one steering delta `render_step_size / steering_time`
of 1 and not above 1. -/
theorem throttle_reaches_max_within_steering_time (s r T : ℚ) (hs : 0 < s) (hsr : s ≤ r)
    (hT : 0 < T) (hfit : ⌈r / s⌉ ≤ INT_MAX) (iterations : Int) (conv : Bool) :
    ∃ (run : Run RefWorld) (d : ℚ),
      main (rampConfig s r T) refModules (refWorld 1 iterations 0 conv)
          (List.replicate ⌊T / s⌋₊ true) = some run
      ∧ macroSteps run.exec.trace = ⌊T / s⌋₊
      ∧ steeringDelta (rampConfig s r T) = some d ∧ d = r / T
      ∧ 1 - d ≤ refModules.getThrottle run.exec.world
      ∧ refModules.getThrottle run.exec.world ≤ 1 := by
  have hr : 0 < r := lt_of_lt_of_le hs hsr
  have hlow : (2 : ℚ) ^ (-1075 : Int) < r / s :=
    lt_of_lt_of_le (lt_trans two_zpow_neg_lt_one_quarter (by norm_num))
      ((one_le_div hs).mpr hsr)
  obtain ⟨run, hm, -, hn, ht⟩ := main_ramp_throttle s r T hs hr hT hlow hfit ⌊T / s⌋₊
    iterations conv
  refine ⟨run, r / T, hm, hn, steeringDelta_rampConfig s r T hT, rfl, ?_, ?_⟩
  · rw [ht]
    have hd : 0 < r / T := div_pos hr hT
    have h1 : T / s < (⌊T / s⌋₊ : ℚ) + 1 := Nat.lt_floor_add_one (T / s)
    have h2 : T < ((⌊T / s⌋₊ : ℚ) + 1) * s := (div_lt_iff₀ hs).mp h1
    have h3 : ((⌊T / s⌋₊ : ℚ) + 1) * s ≤ ((⌊T / s⌋₊ : ℚ) + 1) * r :=
      mul_le_mul_of_nonneg_left hsr (by positivity)
    have h4 : 1 ≤ ((⌊T / s⌋₊ : ℚ) + 1) * (r / T) := by
      rw [← mul_div_assoc, one_le_div hT]
      linarith
    refine le_min ?_ (by linarith)
    linarith
  · rw [ht]
    exact min_le_right _ _

/-- Witness of C7 as amended, the end-to-end scenario of the spec: the source's
settings `step_size = render_step_size = 1e-5`, `steering_time = 1`; after 100000
macro-steps the throttle is within one delta of 1. -/
theorem throttle_reaches_max_within_steering_time_witness :
    (0 : ℚ) < 1 / 100000 ∧ (1 / 100000 : ℚ) ≤ 1 / 100000 ∧ (0 : ℚ) < 1
    ∧ ⌈(1 / 100000 : ℚ) / (1 / 100000)⌉ ≤ INT_MAX
    ∧ ⌊(1 : ℚ) / (1 / 100000)⌋₊ = 100000
    ∧ rampConfig (1 / 100000) (1 / 100000) 1 = defaultConfig
    ∧ ∃ (run : Run RefWorld) (d : ℚ),
      main (rampConfig (1 / 100000) (1 / 100000) 1) refModules (refWorld 1 0 0 true)
          (List.replicate ⌊(1 : ℚ) / (1 / 100000)⌋₊ true) = some run
      ∧ macroSteps run.exec.trace = ⌊(1 : ℚ) / (1 / 100000)⌋₊
      ∧ steeringDelta (rampConfig (1 / 100000) (1 / 100000) 1) = some d
      ∧ d = (1 / 100000) / 1
      ∧ 1 - d ≤ refModules.getThrottle run.exec.world
      ∧ refModules.getThrottle run.exec.world ≤ 1 :=
  ⟨by norm_num, le_refl _, by norm_num, by norm_num [INT_MAX], by norm_num, rfl,
    throttle_reaches_max_within_steering_time (1 / 100000) (1 / 100000) 1 (by norm_num)
      (le_refl _) (by norm_num) (by norm_num [INT_MAX]) 0 true⟩

/-- C8: in every loop iteration (for a positive `render_steps`), the values passed
to the modules are those read in the state `e` of that iteration that follows the
render branch and precedes every module call of the iteration: `rig.Synchronize`
receives the driver's throttle and displacement of that state, `driver.Synchronize`
and `rig.Synchronize` receive the rig's time of that state, and `app.Synchronize`
receives the same throttle as the rig. -/
theorem iteration_passes_values_read_before_update (cfg : Config) (M : Modules W) (k : Int)
    (hpos : 0 < k) (s : LoopState W) :
    ∃ (s1 : LoopState W) (e : Exec W) (n : Int),
      iteration cfg M k s = some s1
      ∧ (e = s.exec ∨ e = (renderScene cfg M s).exec)
      ∧ moduleTrace e.trace = moduleTrace s.exec.trace
      ∧ s1.exec.trace
          = e.trace
            ++ [Call.driverSynchronize (M.getChTime e.world),
                Call.rigSynchronize (M.getChTime e.world) (M.getDisplacement e.world)
                  (M.getThrottle e.world) s.shoe_forces,
                Call.appSynchronize "" 0 (M.getThrottle e.world) 0,
                Call.driverAdvance cfg.step_size,
                Call.rigAdvance cfg.step_size,
                Call.appAdvance cfg.step_size,
                Call.coutStep (wrap32 (s.step_number + 1)) (M.getChTime e.world) n] := by
  by_cases h : Int.tmod s.step_number k = 0
  · obtain ⟨n, hn⟩ := updateModules_trace_exists cfg M (renderScene cfg M s)
    have hs : step cfg M k s = updateModules cfg M (renderScene cfg M s) := by
      unfold step
      rw [if_pos h]
    refine ⟨_, (renderScene cfg M s).exec, n, iteration_of_pos cfg M k hpos s, Or.inr rfl,
      ?_, ?_⟩
    · rw [renderScene_trace, moduleTrace_append, moduleTrace_renderCalls, List.append_nil]
    · rw [hs, hn]
      simp [moduleCalls, renderScene_shoe_forces, renderScene_step_number]
  · obtain ⟨n, hn⟩ := updateModules_trace_exists cfg M s
    have hs : step cfg M k s = updateModules cfg M s := by
      unfold step
      rw [if_neg h]
    refine ⟨_, s.exec, n, iteration_of_pos cfg M k hpos s, Or.inl rfl, rfl, ?_⟩
    rw [hs, hn]
    simp [moduleCalls]

/-- Witness of C8: the source's settings and cadence in the reference environment,
from the initial loop state. -/
theorem iteration_passes_values_read_before_update_witness :
    (0 : Int) < 1
    ∧ ∃ (s1 : LoopState RefWorld) (e : Exec RefWorld) (n : Int),
      iteration defaultConfig refModules 1 (initialLoopState ⟨refWorld 1 0 0 true, []⟩) = some s1
      ∧ (e = (initialLoopState ⟨refWorld 1 0 0 true, []⟩).exec
          ∨ e = (renderScene defaultConfig refModules
                  (initialLoopState ⟨refWorld 1 0 0 true, []⟩)).exec)
      ∧ moduleTrace e.trace
          = moduleTrace (initialLoopState ⟨refWorld 1 0 0 true, []⟩).exec.trace
      ∧ s1.exec.trace
          = e.trace
            ++ [Call.driverSynchronize (refModules.getChTime e.world),
                Call.rigSynchronize (refModules.getChTime e.world)
                  (refModules.getDisplacement e.world) (refModules.getThrottle e.world)
                  (initialLoopState ⟨refWorld 1 0 0 true, []⟩).shoe_forces,
                Call.appSynchronize "" 0 (refModules.getThrottle e.world) 0,
                Call.driverAdvance defaultConfig.step_size,
                Call.rigAdvance defaultConfig.step_size,
                Call.appAdvance defaultConfig.step_size,
                Call.coutStep
                  (wrap32 ((initialLoopState ⟨refWorld 1 0 0 true, []⟩).step_number + 1))
                  (refModules.getChTime e.world) n] :=
  ⟨by decide,
    iteration_passes_values_read_before_update defaultConfig refModules 1 (by decide)
      (initialLoopState ⟨refWorld 1 0 0 true, []⟩)⟩

/-- C9: the render branch leaves `step_number` and `shoe_forces` unchanged and
applies `++` to `render_frame` (the value plus 1 below `INT_MAX`); and when the
observer's render calls do not change what the driver and the rig report, the
module calls that follow, with the time, throttle, post displacement and step they
pass, are the same with and without the render branch. -/
theorem render_branch_changes_only_render_frame (cfg : Config) (M : Modules W)
    (s : LoopState W)
    (hobs : ∀ c w, c.isRenderCall = true →
      M.getThrottle (M.exec c w) = M.getThrottle w
      ∧ M.getDisplacement (M.exec c w) = M.getDisplacement w
      ∧ M.getChTime (M.exec c w) = M.getChTime w) :
    (renderScene cfg M s).step_number = s.step_number
    ∧ (renderScene cfg M s).shoe_forces = s.shoe_forces
    ∧ (renderScene cfg M s).render_frame = wrap32 (s.render_frame + 1)
    ∧ (INT_MIN ≤ s.render_frame → s.render_frame < INT_MAX →
        (renderScene cfg M s).render_frame = s.render_frame + 1)
    ∧ (updateModules cfg M (renderScene cfg M s)).step_number
        = (updateModules cfg M s).step_number
    ∧ (updateModules cfg M (renderScene cfg M s)).shoe_forces
        = (updateModules cfg M s).shoe_forces
    ∧ ∃ (calls : List Call) (n1 n2 : Int),
        calls = moduleCalls cfg (M.getChTime s.exec.world) (M.getDisplacement s.exec.world)
          (M.getThrottle s.exec.world) s.shoe_forces
        ∧ (updateModules cfg M (renderScene cfg M s)).exec.trace
            = (renderScene cfg M s).exec.trace ++ calls
              ++ [Call.coutStep (wrap32 (s.step_number + 1)) (M.getChTime s.exec.world) n1]
        ∧ (updateModules cfg M s).exec.trace
            = s.exec.trace ++ calls
              ++ [Call.coutStep (wrap32 (s.step_number + 1)) (M.getChTime s.exec.world) n2] := by
  have hw : M.getThrottle (renderScene cfg M s).exec.world = M.getThrottle s.exec.world
      ∧ M.getDisplacement (renderScene cfg M s).exec.world = M.getDisplacement s.exec.world
      ∧ M.getChTime (renderScene cfg M s).exec.world = M.getChTime s.exec.world := by
    have key : ∀ (cs : List Call), (∀ c ∈ cs, c.isRenderCall = true) → ∀ e : Exec W,
        M.getThrottle (e.calls M cs).world = M.getThrottle e.world
        ∧ M.getDisplacement (e.calls M cs).world = M.getDisplacement e.world
        ∧ M.getChTime (e.calls M cs).world = M.getChTime e.world := fun cs hcs e =>
      ⟨Exec.calls_world_inv_of M M.getThrottle Call.isRenderCall
          (fun c w hc => (hobs c w hc).1) cs hcs e,
        Exec.calls_world_inv_of M M.getDisplacement Call.isRenderCall
          (fun c w hc => (hobs c w hc).2.1) cs hcs e,
        Exec.calls_world_inv_of M M.getChTime Call.isRenderCall
          (fun c w hc => (hobs c w hc).2.2) cs hcs e⟩
    have h3 := key [Call.beginScene true true ⟨255, 140, 161, 192⟩, Call.drawAll, Call.endScene]
      (by simp [Call.isRenderCall]) s.exec
    unfold renderScene
    dsimp only
    split
    · obtain ⟨a1, a2, a3⟩ := hobs (Call.writeImageToFile (out_dir cfg)
        (wrap32 (s.render_frame + 1))) (s.exec.calls M
          [Call.beginScene true true ⟨255, 140, 161, 192⟩, Call.drawAll, Call.endScene]).world rfl
      exact ⟨a1.trans h3.1, a2.trans h3.2.1, a3.trans h3.2.2⟩
    · exact h3
  obtain ⟨n1, h1⟩ := updateModules_trace_exists cfg M (renderScene cfg M s)
  obtain ⟨n2, h2⟩ := updateModules_trace_exists cfg M s
  refine ⟨rfl, rfl, rfl, ?_, rfl, rfl, _, n1, n2, rfl, ?_, h2⟩
  · intro h0 h1
    exact wrap32_of_range _ (by unfold INT_MIN at *; omega) (by omega)
  · rw [h1, hw.1, hw.2.1, hw.2.2]
    rfl

/-- Witness of C9: the reference environment, whose render calls change nothing,
with the source's settings and the initial loop state. -/
theorem render_branch_changes_only_render_frame_witness :
    (∀ c w, c.isRenderCall = true →
      refModules.getThrottle (refModules.exec c w) = refModules.getThrottle w
      ∧ refModules.getDisplacement (refModules.exec c w) = refModules.getDisplacement w
      ∧ refModules.getChTime (refModules.exec c w) = refModules.getChTime w)
    ∧ (renderScene defaultConfig refModules
        (initialLoopState ⟨refWorld 1 0 0 true, []⟩)).render_frame = 1
    ∧ (renderScene defaultConfig refModules
        (initialLoopState ⟨refWorld 1 0 0 true, []⟩)).step_number = 0 :=
  have hobs : ∀ c w, c.isRenderCall = true →
      refModules.getThrottle (refModules.exec c w) = refModules.getThrottle w
      ∧ refModules.getDisplacement (refModules.exec c w) = refModules.getDisplacement w
      ∧ refModules.getChTime (refModules.exec c w) = refModules.getChTime w := fun c w h => by
    have hw : refModules.exec c w = w := refExec_of_isRenderCall c w h
    rw [hw]
    exact ⟨rfl, rfl, rfl⟩
  have h := render_branch_changes_only_render_frame defaultConfig refModules
    (initialLoopState ⟨refWorld 1 0 0 true, []⟩) hobs
  ⟨hobs, (h.2.2.2.1 (by decide) (by decide)).trans (by decide), h.1⟩

end Claims

end TrackTestRigBand
